import Mathlib

/-!
# MeteorMgr (src/MeteorMgr.cpp): rate-controlled meteor spawning and lifecycle

A shallow embedding of `MeteorMgr` and the properties of its constructor,
destructor, setters, `init`, per-frame `update` and `draw`.

Modelling conventions
* A `double` is a `Dbl`: a NaN, an infinity, or a finite value held as a rational.
  Every `double` operation of the source is the exact operation followed by IEEE 754
  rounding to nearest, ties to even, to 53 significant bits with least exponent -1074
  (`f64`), and yields an infinity when the rounded magnitude reaches `2 ^ 1024`.
  The sign of a zero is not represented; no divisor of the source can be zero.
  The theorems hold for every rational as a finite input, the `double`s among them.
  The `float` member `zhr_to_wsr` holds a finite value as a rational; the `float`
  operations of the constructor round to 24 bits with least exponent -149 (`f32`).
  The luminance read by `draw` and the value `draw` returns take part in no arithmetic
  and are held as rationals.
* `int` values are integers (`Int`).  No `int` arithmetic is performed by the code apart
  from loop counters bounded by an `int`, so no wrap-around arises.  The conversion
  `(int)x` of a `double` is truncation toward zero when the result fits a 32-bit `int`;
  when it does not, or `x` is not finite, the C++ result is undefined and is supplied by
  the environment.
* `std::vector<Meteor*> active` is a `List M`, where `M` is the state of one
  meteor.  A vector iterator is its integer offset from `begin()`.
  Dereferencing an offset outside `[0, size)` is undefined behaviour and makes
  the embedded operation return `none`.
* `Meteor`, `Navigator::getTimeSpeed`, `rand` and `RAND_MAX` are external; they are
  the fields of `Env`.  Every call the manager makes on a collaborator is recorded
  in a trace of `Event`s, in program order.  The collaborators of `draw`
  (`LandscapeMgr`, `Meteor::draw`) are the fields of `DrawEnv` and its calls are
  `DrawEvent`s; the settings store read by `init` is a lookup from keys to integers.
-/

namespace Stellarium

/-! ## Floating point -/

/-- Nearest integer to `x`, a tie going to the even neighbour. -/
def roundHalfEven (x : ℚ) : Int :=
  if x - ⌊x⌋ < 1 / 2 then ⌊x⌋
  else if 1 / 2 < x - ⌊x⌋ then ⌊x⌋ + 1
  else if ⌊x⌋ % 2 = 0 then ⌊x⌋ else ⌊x⌋ + 1

/-- Exponent of the unit in the last place of the binary format with `prec` significant
bits and least exponent `emin`, at the magnitude of `q`. -/
def ulpExp (prec : Nat) (emin : Int) (q : ℚ) : Int :=
  max (Int.log 2 |q| - ((prec : Int) - 1)) emin

/-- Nearest multiple of `2 ^ e` to `q`, a tie going to the even multiple. -/
def roundAt (e : Int) (q : ℚ) : ℚ :=
  (roundHalfEven (q / (2 : ℚ) ^ e) : ℚ) * (2 : ℚ) ^ e

/-- IEEE 754 rounding to nearest, ties to even, in the binary format with `prec`
significant bits and least exponent `emin`, the exponent range unbounded above. -/
def roundNE (prec : Nat) (emin : Int) (q : ℚ) : ℚ :=
  roundAt (ulpExp prec emin q) q

/-- Rounding to `float` (binary32). -/
def f32 (q : ℚ) : ℚ :=
  roundNE 24 (-149) q

/-- Rounding to `double` (binary64). -/
def f64 (q : ℚ) : ℚ :=
  roundNE 53 (-1074) q

/-- Numbers of the form `n * 2 ^ e` with `|n| < 2 ^ prec` and `emin <= e`: the finite
values of the binary format, the exponent range unbounded above. -/
def Representable (prec : Nat) (emin : Int) (q : ℚ) : Prop :=
  ∃ n e : Int, |n| < 2 ^ prec ∧ emin ≤ e ∧ q = (n : ℚ) * (2 : ℚ) ^ e

/-- A C++ `double`. -/
inductive Dbl where
  /-- A NaN. -/
  | nan
  /-- Minus infinity. -/
  | ninf
  /-- Plus infinity. -/
  | pinf
  /-- A finite value. -/
  | fin (q : ℚ)
  deriving DecidableEq

/-- The `double` that an exact result `q` rounds to. -/
def Dbl.ofRat (q : ℚ) : Dbl :=
  if (2 : ℚ) ^ 1024 ≤ f64 q then Dbl.pinf
  else if f64 q ≤ -(2 : ℚ) ^ 1024 then Dbl.ninf
  else Dbl.fin (f64 q)

/-- The conversion `(double)n` of an `int`. -/
def Dbl.ofInt (n : Int) : Dbl :=
  Dbl.ofRat (n : ℚ)

/-- The product `a * b` of two `double`s. -/
def Dbl.mul : Dbl → Dbl → Dbl
  | Dbl.fin a, Dbl.fin b => Dbl.ofRat (a * b)
  | Dbl.fin a, Dbl.pinf => if 0 < a then Dbl.pinf else if a < 0 then Dbl.ninf else Dbl.nan
  | Dbl.fin a, Dbl.ninf => if 0 < a then Dbl.ninf else if a < 0 then Dbl.pinf else Dbl.nan
  | Dbl.pinf, Dbl.fin b => if 0 < b then Dbl.pinf else if b < 0 then Dbl.ninf else Dbl.nan
  | Dbl.ninf, Dbl.fin b => if 0 < b then Dbl.ninf else if b < 0 then Dbl.pinf else Dbl.nan
  | Dbl.pinf, Dbl.pinf => Dbl.pinf
  | Dbl.pinf, Dbl.ninf => Dbl.ninf
  | Dbl.ninf, Dbl.pinf => Dbl.ninf
  | Dbl.ninf, Dbl.ninf => Dbl.pinf
  | Dbl.nan, _ => Dbl.nan
  | _, Dbl.nan => Dbl.nan

/-- The quotient `a / b` of two `double`s.  A zero divisor is taken as `+0`. -/
def Dbl.div : Dbl → Dbl → Dbl
  | Dbl.fin a, Dbl.fin b =>
    if b = 0 then (if 0 < a then Dbl.pinf else if a < 0 then Dbl.ninf else Dbl.nan)
    else Dbl.ofRat (a / b)
  | Dbl.fin _, Dbl.pinf => Dbl.fin 0
  | Dbl.fin _, Dbl.ninf => Dbl.fin 0
  | Dbl.pinf, Dbl.fin b => if 0 ≤ b then Dbl.pinf else Dbl.ninf
  | Dbl.ninf, Dbl.fin b => if 0 ≤ b then Dbl.ninf else Dbl.pinf
  | Dbl.pinf, Dbl.pinf => Dbl.nan
  | Dbl.pinf, Dbl.ninf => Dbl.nan
  | Dbl.ninf, Dbl.pinf => Dbl.nan
  | Dbl.ninf, Dbl.ninf => Dbl.nan
  | Dbl.nan, _ => Dbl.nan
  | _, Dbl.nan => Dbl.nan

/-- The sum `a + b` of two `double`s. -/
def Dbl.add : Dbl → Dbl → Dbl
  | Dbl.fin a, Dbl.fin b => Dbl.ofRat (a + b)
  | Dbl.fin _, Dbl.pinf => Dbl.pinf
  | Dbl.fin _, Dbl.ninf => Dbl.ninf
  | Dbl.pinf, Dbl.fin _ => Dbl.pinf
  | Dbl.ninf, Dbl.fin _ => Dbl.ninf
  | Dbl.pinf, Dbl.pinf => Dbl.pinf
  | Dbl.ninf, Dbl.ninf => Dbl.ninf
  | Dbl.pinf, Dbl.ninf => Dbl.nan
  | Dbl.ninf, Dbl.pinf => Dbl.nan
  | Dbl.nan, _ => Dbl.nan
  | _, Dbl.nan => Dbl.nan

/-- The comparison `a < b` of two `double`s; false when either is a NaN. -/
def Dbl.lt : Dbl → Dbl → Bool
  | Dbl.fin a, Dbl.fin b => decide (a < b)
  | Dbl.fin _, Dbl.pinf => true
  | Dbl.ninf, Dbl.fin _ => true
  | Dbl.ninf, Dbl.pinf => true
  | _, _ => false

/-- The comparison `a <= b` of two `double`s; false when either is a NaN. -/
def Dbl.le : Dbl → Dbl → Bool
  | Dbl.fin a, Dbl.fin b => decide (a ≤ b)
  | Dbl.fin _, Dbl.pinf => true
  | Dbl.ninf, Dbl.fin _ => true
  | Dbl.ninf, Dbl.pinf => true
  | Dbl.pinf, Dbl.pinf => true
  | Dbl.ninf, Dbl.ninf => true
  | _, _ => false

/-- The absolute value `fabs(a)`. -/
def Dbl.abs : Dbl → Dbl
  | Dbl.fin a => Dbl.fin |a|
  | Dbl.pinf => Dbl.pinf
  | Dbl.ninf => Dbl.pinf
  | Dbl.nan => Dbl.nan

/-- The conversion `(int)x` of a `double`: truncation toward zero when that fits a
32-bit `int`, otherwise undefined and given by `outOfRange`. -/
def toInt (outOfRange : Dbl → Int) (x : Dbl) : Int :=
  match x with
  | Dbl.fin q =>
    let t : Int := if 0 ≤ q then ⌊q⌋ else ⌈q⌉
    if -2147483648 ≤ t ∧ t ≤ 2147483647 then t else outOfRange x
  | _ => outOfRange x

/-! ## The manager and its collaborators -/

/-- Calls made by the manager on its collaborators. -/
inductive Event (M : Type) where
  /-- `(*iter)->update(delta_time)` on a meteor whose state before the call is `m`. -/
  | meteorUpdate (m : M) (delta_time : Dbl)
  /-- `delete *iter` on a meteor whose state is `m`. -/
  | deleteMeteor (m : M)
  /-- The call of `rand()` made by trial `i` of the spawn loop. -/
  | randCall (i : Nat)
  /-- `new Meteor(proj, nav, eye, max_velocity)` in trial `i`. -/
  | newMeteor (i : Nat) (max_velocity : Int)
  deriving DecidableEq

/-- External collaborators of `MeteorMgr`. -/
structure Env (M : Type) where
  /-- `Meteor::update(double delta_time)`: the meteor's new state and whether it is still alive. -/
  meteorUpdate : M → Dbl → M × Bool
  /-- `new Meteor(proj, nav, eye, max_velocity)` as built in trial `i` of the spawn loop. -/
  newMeteor : Nat → Int → M
  /-- `nav->getTimeSpeed()`. -/
  getTimeSpeed : Dbl
  /-- Value returned by the call of `rand()` in trial `i` of the spawn loop. -/
  rand : Nat → Nat
  /-- The constant `RAND_MAX`. -/
  RAND_MAX : Nat
  /-- What `(int)x` yields when `x` is not finite or the truncated `x` does not fit an `int`. -/
  intOutOfRange : Dbl → Int

/-- The fields of `MeteorMgr` used by src/MeteorMgr.cpp. -/
structure MeteorMgr (M : Type) where
  ZHR : Int
  max_velocity : Int
  zhr_to_wsr : ℚ
  active : List M

variable {M : Type}

/-- `MeteorMgr::MeteorMgr(int zhr, int maxv)`; `zhr_to_wsr = 1.6667f/3600.f` is a `float`
quotient of two `float` literals. -/
def MeteorMgr.ctor (zhr maxv : Int) : MeteorMgr M :=
  { ZHR := zhr, max_velocity := maxv, zhr_to_wsr := f32 (f32 1.6667 / f32 3600), active := [] }

/-- `MeteorMgr::setZHR(int zhr)`. -/
def MeteorMgr.setZHR (s : MeteorMgr M) (zhr : Int) : MeteorMgr M :=
  { s with ZHR := zhr }

/-- `MeteorMgr::getZHR()`. -/
def MeteorMgr.getZHR (s : MeteorMgr M) : Int :=
  s.ZHR

/-- `MeteorMgr::setMaxVelocity(int maxv)`. -/
def MeteorMgr.setMaxVelocity (s : MeteorMgr M) (maxv : Int) : MeteorMgr M :=
  { s with max_velocity := maxv }

/-- The loop of `MeteorMgr::~MeteorMgr()`:
`for (iter = active.begin(); iter != active.end(); ++iter) { delete *iter; active.erase(iter); }`. -/
def MeteorMgr.dtorLoop (iter : Int) (active : List M) (trace : List (Event M)) :
    Option (List M × List (Event M)) :=
  if iter = active.length then some (active, trace)
  else if h : 0 ≤ iter ∧ iter < active.length then
    let m := active.get ⟨iter.toNat, by omega⟩
    MeteorMgr.dtorLoop (iter + 1) (active.eraseIdx iter.toNat) (trace ++ [Event.deleteMeteor m])
  else none
termination_by (active.length - iter).toNat
decreasing_by
  simp only [List.length_eraseIdx]
  split <;> omega

/-- `MeteorMgr::~MeteorMgr()`: the vector left behind by the loop and the calls made. -/
def MeteorMgr.dtor (s : MeteorMgr M) : Option (List M × List (Event M)) :=
  MeteorMgr.dtorLoop 0 s.active []

/-- The first loop of `MeteorMgr::update` (lines 98-111), from iterator offset `iter`. -/
def MeteorMgr.updateLoop (env : Env M) (delta_time : Dbl) (iter : Int) (active : List M)
    (trace : List (Event M)) : Option (List M × List (Event M)) :=
  if iter = active.length then some (active, trace)
  else if h : 0 ≤ iter ∧ iter < active.length then
    let m := active.get ⟨iter.toNat, by omega⟩
    let r := env.meteorUpdate m delta_time
    if !r.2 then
      -- delete *iter; active.erase(iter); iter--;  then ++iter
      MeteorMgr.updateLoop env delta_time (iter - 1 + 1) (active.eraseIdx iter.toNat)
        (trace ++ [Event.meteorUpdate m delta_time, Event.deleteMeteor r.1])
    else
      MeteorMgr.updateLoop env delta_time (iter + 1) (active.set iter.toNat r.1)
        (trace ++ [Event.meteorUpdate m delta_time])
  else none
termination_by (active.length - iter).toNat
decreasing_by
  · simp only [List.length_eraseIdx]
    split <;> omega
  · simp only [List.length_set]
    omega

/-- The clamp `if (delta_time > 500) delta_time = 500;` (lines 133-136). -/
def MeteorMgr.clampDelta (delta_time : Dbl) : Dbl :=
  if Dbl.lt (Dbl.fin 500) delta_time then Dbl.fin 500 else delta_time

/-- The expression `(double)ZHR*zhr_to_wsr*(double)delta_time/1000.0f` of lines 139
and 148. -/
def MeteorMgr.rate (s : MeteorMgr M) (delta_time : Dbl) : Dbl :=
  Dbl.div (Dbl.mul (Dbl.mul (Dbl.ofInt s.ZHR) (Dbl.fin s.zhr_to_wsr)) delta_time)
    (Dbl.fin 1000)

/-- The local `mpf` after lines 139-140, for the clamped `delta_time`. -/
def MeteorMgr.mpf (env : Env M) (s : MeteorMgr M) (delta_time : Dbl) : Int :=
  let mpf := toInt env.intOutOfRange (Dbl.add (MeteorMgr.rate s delta_time) (Dbl.fin 0.5))
  if mpf < 1 then 1 else mpf

/-- The right-hand side of the comparison on line 148. -/
def MeteorMgr.threshold (s : MeteorMgr M) (delta_time : Dbl) (mpf : Int) : Dbl :=
  Dbl.div (MeteorMgr.rate s delta_time) (Dbl.ofInt mpf)

/-- The expression `(double)rand()/((double)RAND_MAX+1)` of line 147 when `rand()`
returns `r`. -/
def MeteorMgr.probOf (RAND_MAX r : Nat) : Dbl :=
  Dbl.div (Dbl.ofInt r) (Dbl.add (Dbl.ofInt RAND_MAX) (Dbl.fin 1))

/-- The local `prob` of trial `i` (line 147). -/
def MeteorMgr.prob (env : Env M) (i : Nat) : Dbl :=
  MeteorMgr.probOf env.RAND_MAX (env.rand i)

/-- The loop `for (int i = 0; i < mpf; i++)` of lines 143-154, with `remaining`
iterations still to run from counter value `i`. -/
def MeteorMgr.spawnLoop (env : Env M) (s : MeteorMgr M) (delta_time : Dbl) (mpf : Int) :
    (remaining : Nat) → (i : Nat) → List M → List (Event M) → List M × List (Event M)
  | 0, _, active, trace => (active, trace)
  | remaining + 1, i, active, trace =>
    if s.ZHR > 0 ∧
        Dbl.lt (MeteorMgr.prob env i) (MeteorMgr.threshold s delta_time mpf) = true then
      MeteorMgr.spawnLoop env s delta_time mpf remaining (i + 1)
        (active ++ [env.newMeteor i s.max_velocity])
        (trace ++ [Event.randCall i, Event.newMeteor i s.max_velocity])
    else
      MeteorMgr.spawnLoop env s delta_time mpf remaining (i + 1) active
        (trace ++ [Event.randCall i])


/-- `MeteorMgr::update(double delta_time)`: the manager afterwards and the calls made. -/
def MeteorMgr.update (env : Env M) (s : MeteorMgr M) (delta_time : Dbl) :
    Option (MeteorMgr M × List (Event M)) :=
  let delta_time := Dbl.mul delta_time (Dbl.fin 1000)
  match MeteorMgr.updateLoop env delta_time 0 s.active [] with
  | none => none
  | some (active, trace) =>
    let tspeed := Dbl.mul env.getTimeSpeed (Dbl.fin 86400)
    if Dbl.le tspeed (Dbl.fin 0) = true ∨ Dbl.lt (Dbl.fin 1) (Dbl.abs tspeed) = true then
      some ({ s with active := active }, trace)
    else
      let delta_time := MeteorMgr.clampDelta delta_time
      let mpf := MeteorMgr.mpf env s delta_time
      let r := MeteorMgr.spawnLoop env s delta_time mpf mpf.toNat 0 active trace
      some ({ s with active := r.1 }, r.2)


/-! ## `init` and `draw` -/

/-- `MeteorMgr::init()`: `setZHR(settings->value("astro/meteor_rate", 10).toInt())`.  The
settings store is external: `settings key` is the integer stored under `key`, if any. -/
def MeteorMgr.init (settings : String → Option Int) (s : MeteorMgr M) : MeteorMgr M :=
  s.setZHR ((settings "astro/meteor_rate").getD 10)

/-- Calls made by `MeteorMgr::draw` on its collaborators. -/
inductive DrawEvent (M : Type) where
  /-- `core->getProjection()->setCurrentFrame(Projector::FRAME_LOCAL)`. -/
  | setCurrentFrameLocal
  /-- `glBlendFunc(GL_SRC_ALPHA, GL_ONE_MINUS_SRC_ALPHA)`. -/
  | glBlendFunc
  /-- `glEnable(GL_BLEND)`. -/
  | glEnableBlend
  /-- `glDisable(GL_TEXTURE_2D)`. -/
  | glDisableTexture2D
  /-- `(*iter)->draw(core->getProjection(), core->getNavigation())` on a meteor whose state
  before the call is `m`. -/
  | meteorDraw (m : M)
  /-- `glEnable(GL_TEXTURE_2D)`. -/
  | glEnableTexture2D
  deriving DecidableEq

/-- External collaborators of `MeteorMgr::draw`. -/
structure DrawEnv (M : Type) where
  /-- `landmgr->getFlagAtmosphere()`. -/
  getFlagAtmosphere : Bool
  /-- `landmgr->getLuminance()`. -/
  getLuminance : ℚ
  /-- `Meteor::draw(proj, nav)`: the state in which the call leaves the meteor. -/
  meteorDraw : M → M

/-- The meteor of a `Meteor::draw` call. -/
def DrawEvent.drawCall : DrawEvent M → Option M
  | DrawEvent.meteorDraw m => some m
  | _ => none

/-- The loop of `MeteorMgr::draw` (lines 175-178) over the vector: the meteors afterwards
and the calls made. -/
def MeteorMgr.drawLoop (denv : DrawEnv M) : List M → List M × List (DrawEvent M)
  | [] => ([], [])
  | m :: rest =>
    (denv.meteorDraw m :: (MeteorMgr.drawLoop denv rest).1,
      DrawEvent.meteorDraw m :: (MeteorMgr.drawLoop denv rest).2)

/-- `MeteorMgr::draw(StelCore* core)`: the value returned, the manager afterwards and the
calls made. -/
def MeteorMgr.draw (denv : DrawEnv M) (s : MeteorMgr M) : ℚ × MeteorMgr M × List (DrawEvent M) :=
  if denv.getFlagAtmosphere = true ∧ denv.getLuminance > 5 then (0, s, [])
  else
    let r := MeteorMgr.drawLoop denv s.active
    (0, { s with active := r.1 },
      [DrawEvent.setCurrentFrameLocal, DrawEvent.glBlendFunc, DrawEvent.glEnableBlend,
        DrawEvent.glDisableTexture2D] ++ r.2 ++ [DrawEvent.glEnableTexture2D])

/-- A daylight scene: atmosphere on, luminance 100; drawing leaves a meteor as it is. -/
def brightScene : DrawEnv Nat :=
  { getFlagAtmosphere := true, getLuminance := 100, meteorDraw := fun m => m }

/-- A night scene: atmosphere on, luminance 1; drawing leaves a meteor as it is. -/
def darkScene : DrawEnv Nat :=
  { getFlagAtmosphere := true, getLuminance := 1, meteorDraw := fun m => m }

/-! ## Reading a trace -/

/-- The meteor and argument of a `Meteor::update` call. -/
def Event.updateCall : Event M → Option (M × Dbl)
  | Event.meteorUpdate m d => some (m, d)
  | _ => none

/-- The meteor destroyed by a `delete`. -/
def Event.deleted : Event M → Option M
  | Event.deleteMeteor m => some m
  | _ => none

/-- The trial number of a `rand()` call. -/
def Event.trial : Event M → Option Nat
  | Event.randCall i => some i
  | _ => none

/-- The trial number and velocity bound of a `new Meteor`. -/
def Event.created : Event M → Option (Nat × Int)
  | Event.newMeteor i v => some (i, v)
  | _ => none

/-! ## What the two loops of `update` compute -/

/-- States of the meteors of `active` whose `Meteor::update` returns true, in order. -/
def survivors (env : Env M) (delta_time : Dbl) (active : List M) : List M :=
  active.filterMap fun m =>
    if (env.meteorUpdate m delta_time).2 then some (env.meteorUpdate m delta_time).1 else none

/-- States, at deletion, of the meteors of `active` whose `Meteor::update` returns false. -/
def expired (env : Env M) (delta_time : Dbl) (active : List M) : List M :=
  active.filterMap fun m =>
    if (env.meteorUpdate m delta_time).2 then none else some (env.meteorUpdate m delta_time).1

/-- Calls made by the first loop of `update` over `active`. -/
def advanceTrace (env : Env M) (delta_time : Dbl) : List M → List (Event M)
  | [] => []
  | m :: rest =>
    if (env.meteorUpdate m delta_time).2 then
      Event.meteorUpdate m delta_time :: advanceTrace env delta_time rest
    else
      Event.meteorUpdate m delta_time :: Event.deleteMeteor (env.meteorUpdate m delta_time).1 ::
        advanceTrace env delta_time rest

/-- Whether trial `i` passes the test of line 148. -/
def launches (env : Env M) (s : MeteorMgr M) (delta_time : Dbl) (mpf : Int) (i : Nat) : Bool :=
  decide (s.ZHR > 0 ∧
    Dbl.lt (MeteorMgr.prob env i) (MeteorMgr.threshold s delta_time mpf) = true)

/-- Trials among `i, ..., i + n - 1` that pass the test of line 148. -/
def launched (env : Env M) (s : MeteorMgr M) (delta_time : Dbl) (mpf : Int) (n i : Nat) : List Nat :=
  (List.range' i n).filter (launches env s delta_time mpf)

/-- Calls made by `n` iterations of the spawn loop from counter value `i`. -/
def spawnTrace (env : Env M) (s : MeteorMgr M) (delta_time : Dbl) (mpf : Int) :
    Nat → Nat → List (Event M)
  | 0, _ => []
  | n + 1, i =>
    if launches env s delta_time mpf i then
      Event.randCall i :: Event.newMeteor i s.max_velocity ::
        spawnTrace env s delta_time mpf n (i + 1)
    else
      Event.randCall i :: spawnTrace env s delta_time mpf n (i + 1)

/-- The value of `delta_time` on line 139 of `update(delta)`, once past the speed gate. -/
def MeteorMgr.spawnDelta (delta : Dbl) : Dbl :=
  MeteorMgr.clampDelta (Dbl.mul delta (Dbl.fin 1000))

/-- The value of `mpf` that `update(delta)` loops to, once past the speed gate. -/
def MeteorMgr.meteorsPerFrame (env : Env M) (s : MeteorMgr M) (delta : Dbl) : Int :=
  MeteorMgr.mpf env s (MeteorMgr.spawnDelta delta)

/-- The value of `(double)ZHR*zhr_to_wsr*(double)delta_time/1000.0f` for `ZHR = z`,
`zhr_to_wsr = k` and a finite `delta_time = d`, when no operation overflows: each of the
three operations rounded to `double`. -/
def rateValue (z : Int) (k d : ℚ) : ℚ :=
  f64 (f64 (f64 ((z : ℚ) * k) * d) / 1000)

/-- The `double` nearest to 0.1. -/
def tenth : ℚ :=
  3602879701896397 / 36028797018963968

/-- The `double` nearest to 1/86400, one second in days. -/
def secondInDays : ℚ :=
  6832127434707241 / 590295810358705651712

/-- A time source running at real speed, samples that are always 0, and meteors that are
natural numbers and stay alive while even. -/
def realTimeEnv : Env Nat :=
  { meteorUpdate := fun m _ => (m, decide (m % 2 = 0)),
    newMeteor := fun i _ => 1000 + i,
    getTimeSpeed := Dbl.fin secondInDays,
    rand := fun _ => 0,
    RAND_MAX := 32767,
    intOutOfRange := fun _ => 0 }

/-- As `realTimeEnv`, with the time source running at one sky day per second. -/
def fastEnv : Env Nat :=
  { realTimeEnv with getTimeSpeed := Dbl.fin 1 }

/-- A manager as constructed by `MeteorMgr(10, 70)`, holding four meteors. -/
def demoMgr : MeteorMgr Nat :=
  { (MeteorMgr.ctor 10 70 : MeteorMgr Nat) with active := [1, 2, 3, 4] }

/-! ## Expected number of spawns -/

/-- Number of the values `0 .. RAND_MAX` of `rand()` for which a trial passes the test of
line 148. -/
def MeteorMgr.launchCount (RAND_MAX : Nat) (s : MeteorMgr M) (delta_time : Dbl)
    (mpf : Int) : Nat :=
  (List.range (RAND_MAX + 1)).countP fun r =>
    decide (s.ZHR > 0 ∧
      Dbl.lt (MeteorMgr.probOf RAND_MAX r) (MeteorMgr.threshold s delta_time mpf) = true)

/-- Chance that one trial of `update` creates a meteor when `rand()` is uniform on
`0 .. RAND_MAX`. -/
def MeteorMgr.trialProbability (env : Env M) (s : MeteorMgr M) (delta_time : Dbl)
    (mpf : Int) : ℚ :=
  (MeteorMgr.launchCount env.RAND_MAX s delta_time mpf : ℚ) / ((env.RAND_MAX : ℚ) + 1)

/-- Sum of the chances of the trials that `update(delta)` makes: none behind a closed
speed gate, `mpf` otherwise. -/
def MeteorMgr.expectedSpawns (env : Env M) (s : MeteorMgr M) (delta : Dbl) : ℚ :=
  if Dbl.le (Dbl.mul env.getTimeSpeed (Dbl.fin 86400)) (Dbl.fin 0) = true ∨
      Dbl.lt (Dbl.fin 1) (Dbl.abs (Dbl.mul env.getTimeSpeed (Dbl.fin 86400))) = true then 0
  else
    ((List.range (MeteorMgr.meteorsPerFrame env s delta).toNat).map fun _ =>
      MeteorMgr.trialProbability env s (MeteorMgr.spawnDelta delta)
        (MeteorMgr.meteorsPerFrame env s delta)).sum

/-- Sum of `expectedSpawns` over `n` successive calls `update(delta)`, each on the manager
the previous call left. -/
def MeteorMgr.expectedTotal (env : Env M) (delta : Dbl) : Nat → MeteorMgr M → Option ℚ
  | 0, _ => some 0
  | n + 1, s =>
    match MeteorMgr.update env s delta with
    | none => none
    | some (s', _) =>
      (MeteorMgr.expectedTotal env delta n s').map fun t =>
        MeteorMgr.expectedSpawns env s delta + t



/-! ## Rounding: monotone, exact on representable numbers -/

theorem roundHalfEven_intCast (n : Int) : roundHalfEven (n : ℚ) = n := by
  unfold roundHalfEven
  simp

theorem floor_le_roundHalfEven (x : ℚ) : ⌊x⌋ ≤ roundHalfEven x := by
  unfold roundHalfEven
  split_ifs <;> omega

theorem roundHalfEven_le_floor_add_one (x : ℚ) : roundHalfEven x ≤ ⌊x⌋ + 1 := by
  unfold roundHalfEven
  split_ifs <;> omega

theorem roundHalfEven_mono {x y : ℚ} (h : x ≤ y) : roundHalfEven x ≤ roundHalfEven y := by
  have hf : ⌊x⌋ ≤ ⌊y⌋ := Int.floor_mono h
  rcases lt_or_eq_of_le hf with hlt | heq
  · calc roundHalfEven x ≤ ⌊x⌋ + 1 := roundHalfEven_le_floor_add_one x
      _ ≤ ⌊y⌋ := hlt
      _ ≤ roundHalfEven y := floor_le_roundHalfEven y
  · have hxy : x - ⌊x⌋ ≤ y - ⌊y⌋ := by
      rw [heq]
      linarith
    unfold roundHalfEven
    rw [heq]
    rw [heq] at hxy
    split_ifs <;> first | omega | (exfalso; linarith)

theorem roundHalfEven_le_of_le {x : ℚ} {n : Int} (h : x ≤ n) : roundHalfEven x ≤ n := by
  have := roundHalfEven_mono h
  rwa [roundHalfEven_intCast] at this

theorem le_roundHalfEven_of_le {x : ℚ} {n : Int} (h : (n : ℚ) ≤ x) : n ≤ roundHalfEven x := by
  have := roundHalfEven_mono h
  rwa [roundHalfEven_intCast] at this

theorem two_zpow_pos (e : Int) : (0 : ℚ) < (2 : ℚ) ^ e := zpow_pos (by norm_num) e

theorem roundAt_mono (e : Int) {q₁ q₂ : ℚ} (h : q₁ ≤ q₂) : roundAt e q₁ ≤ roundAt e q₂ := by
  unfold roundAt
  have hp := two_zpow_pos e
  have hd : q₁ / (2 : ℚ) ^ e ≤ q₂ / (2 : ℚ) ^ e := div_le_div_of_nonneg_right h hp.le
  have hr : (roundHalfEven (q₁ / (2 : ℚ) ^ e) : ℚ) ≤ (roundHalfEven (q₂ / (2 : ℚ) ^ e) : ℚ) := by
    exact_mod_cast roundHalfEven_mono hd
  exact mul_le_mul_of_nonneg_right hr hp.le

theorem roundAt_int_mul (e e' : Int) (n : Int) (h : e ≤ e') :
    roundAt e ((n : ℚ) * (2 : ℚ) ^ e') = (n : ℚ) * (2 : ℚ) ^ e' := by
  unfold roundAt
  obtain ⟨k, hk⟩ : ∃ k : Nat, e' = e + k := ⟨(e' - e).toNat, by omega⟩
  have h2 : (2 : ℚ) ≠ 0 := by norm_num
  have e1 : (n : ℚ) * (2 : ℚ) ^ e' / (2 : ℚ) ^ e = ((n * 2 ^ k : Int) : ℚ) := by
    rw [hk, zpow_add₀ h2, zpow_natCast]
    push_cast
    field_simp
    ring
  rw [e1, roundHalfEven_intCast, hk, zpow_add₀ h2, zpow_natCast]
  push_cast
  ring

theorem roundAt_zero (e : Int) : roundAt e 0 = 0 := by
  have := roundAt_int_mul e e 0 (le_refl e)
  simpa using this

theorem roundNE_zero (prec : Nat) (emin : Int) : roundNE prec emin 0 = 0 :=
  roundAt_zero _

theorem roundNE_nonneg (prec : Nat) (emin : Int) {q : ℚ} (h : 0 ≤ q) :
    0 ≤ roundNE prec emin q := by
  have := roundAt_mono (ulpExp prec emin q) h
  rwa [roundAt_zero] at this

theorem roundNE_nonpos (prec : Nat) (emin : Int) {q : ℚ} (h : q ≤ 0) :
    roundNE prec emin q ≤ 0 := by
  have := roundAt_mono (ulpExp prec emin q) h
  rwa [roundAt_zero] at this

theorem log_lt_of_ulpExp_lt (prec : Nat) (emin : Int) {q₁ q₂ : ℚ}
    (h : ulpExp prec emin q₁ < ulpExp prec emin q₂) :
    Int.log 2 |q₁| < Int.log 2 |q₂| ∧
      ulpExp prec emin q₂ = Int.log 2 |q₂| - ((prec : Int) - 1) := by
  unfold ulpExp at *
  constructor
  · rcases le_or_lt (Int.log 2 |q₂|) (Int.log 2 |q₁|) with hle | hlt
    · exfalso
      have : max (Int.log 2 |q₂| - ((prec : Int) - 1)) emin ≤
          max (Int.log 2 |q₁| - ((prec : Int) - 1)) emin :=
        max_le_max (by omega) (le_refl _)
      omega
    · exact hlt
  · rcases le_total (Int.log 2 |q₂| - ((prec : Int) - 1)) emin with hle | hge
    · exfalso
      rw [max_eq_right hle] at h
      have := le_max_right (Int.log 2 |q₁| - ((prec : Int) - 1)) emin
      omega
    · exact max_eq_left hge

theorem zpow_log_abs_le {q : ℚ} (hq : q ≠ 0) : (2 : ℚ) ^ Int.log 2 |q| ≤ |q| := by
  have := Int.zpow_log_le_self (b := 2) (r := |q|) (by norm_num) (abs_pos.2 hq)
  simpa using this

theorem abs_lt_zpow_of_log_lt {q : ℚ} {x : Int} (h : Int.log 2 |q| < x) : |q| < (2 : ℚ) ^ x := by
  have h1 := Int.lt_zpow_succ_log_self (b := 2) (by norm_num) |q|
  have h2 : ((2 : ℕ) : ℚ) ^ (Int.log 2 |q| + 1) ≤ ((2 : ℕ) : ℚ) ^ x :=
    zpow_le_zpow_right₀ (by norm_num) (by omega)
  have := lt_of_lt_of_le h1 h2
  simpa using this

theorem ulpExp_le_log (prec : Nat) (emin : Int) (hp : 1 ≤ prec) {q₁ q₂ : ℚ}
    (h : ulpExp prec emin q₁ < ulpExp prec emin q₂) :
    ulpExp prec emin q₁ ≤ Int.log 2 |q₂| ∧ ulpExp prec emin q₂ ≤ Int.log 2 |q₂| := by
  obtain ⟨_, he⟩ := log_lt_of_ulpExp_lt prec emin h
  have : (1 : Int) ≤ (prec : Int) := by exact_mod_cast hp
  constructor <;> omega

/-- Rounding is monotone. -/
theorem roundNE_mono (prec : Nat) (emin : Int) (hp : 1 ≤ prec) {q₁ q₂ : ℚ} (h : q₁ ≤ q₂) :
    roundNE prec emin q₁ ≤ roundNE prec emin q₂ := by
  rcases le_or_lt q₁ 0 with h1 | h1
  · rcases le_or_lt 0 q₂ with h2 | h2
    · exact (roundNE_nonpos prec emin h1).trans (roundNE_nonneg prec emin h2)
    · -- q₁ ≤ q₂ < 0
      have hq1 : q₁ < 0 := lt_of_le_of_lt h h2
      have habs : |q₂| ≤ |q₁| := by
        rw [abs_of_neg h2, abs_of_neg hq1]
        linarith
      rcases lt_trichotomy (ulpExp prec emin q₂) (ulpExp prec emin q₁) with hlt | heq | hgt
      · obtain ⟨hl, _⟩ := log_lt_of_ulpExp_lt prec emin hlt
        obtain ⟨e2, e1⟩ := ulpExp_le_log prec emin hp hlt
        have hB1 : (2 : ℚ) ^ Int.log 2 |q₁| ≤ |q₁| := zpow_log_abs_le hq1.ne
        have hB2 : |q₂| < (2 : ℚ) ^ Int.log 2 |q₁| := abs_lt_zpow_of_log_lt hl
        have a1 := abs_of_neg hq1
        have a2 := abs_of_neg h2
        have k1 := roundAt_int_mul (ulpExp prec emin q₁) (Int.log 2 |q₁|) (-1) e1
        have k2 := roundAt_int_mul (ulpExp prec emin q₂) (Int.log 2 |q₁|) (-1) e2
        have m1 := roundAt_mono (ulpExp prec emin q₁)
          (show q₁ ≤ ((-1 : Int) : ℚ) * (2 : ℚ) ^ Int.log 2 |q₁| by push_cast; linarith)
        have m2 := roundAt_mono (ulpExp prec emin q₂)
          (show ((-1 : Int) : ℚ) * (2 : ℚ) ^ Int.log 2 |q₁| ≤ q₂ by push_cast; linarith)
        rw [k1] at m1
        rw [k2] at m2
        exact m1.trans m2
      · unfold roundNE
        rw [heq]
        exact roundAt_mono _ h
      · exfalso
        obtain ⟨hl, _⟩ := log_lt_of_ulpExp_lt prec emin hgt
        have := Int.log_mono_right (b := 2) (abs_pos.2 h2.ne) habs
        omega
  · -- 0 < q₁ ≤ q₂
    have hq2 : 0 < q₂ := lt_of_lt_of_le h1 h
    have habs : |q₁| ≤ |q₂| := by
      rw [abs_of_pos h1, abs_of_pos hq2]
      exact h
    rcases lt_trichotomy (ulpExp prec emin q₁) (ulpExp prec emin q₂) with hlt | heq | hgt
    · obtain ⟨hl, _⟩ := log_lt_of_ulpExp_lt prec emin hlt
      obtain ⟨e1, e2⟩ := ulpExp_le_log prec emin hp hlt
      have hB2 : (2 : ℚ) ^ Int.log 2 |q₂| ≤ |q₂| := zpow_log_abs_le (ne_of_gt hq2)
      have hB1 : |q₁| < (2 : ℚ) ^ Int.log 2 |q₂| := abs_lt_zpow_of_log_lt hl
      have a2 := abs_of_pos hq2
      have a1 := abs_of_pos h1
      have k1 := roundAt_int_mul (ulpExp prec emin q₁) (Int.log 2 |q₂|) 1 e1
      have k2 := roundAt_int_mul (ulpExp prec emin q₂) (Int.log 2 |q₂|) 1 e2
      have m1 := roundAt_mono (ulpExp prec emin q₁)
        (show q₁ ≤ ((1 : Int) : ℚ) * (2 : ℚ) ^ Int.log 2 |q₂| by push_cast; linarith)
      have m2 := roundAt_mono (ulpExp prec emin q₂)
        (show ((1 : Int) : ℚ) * (2 : ℚ) ^ Int.log 2 |q₂| ≤ q₂ by push_cast; linarith)
      rw [k1] at m1
      rw [k2] at m2
      exact m1.trans m2
    · unfold roundNE
      rw [heq]
      exact roundAt_mono _ h
    · exfalso
      obtain ⟨hl, _⟩ := log_lt_of_ulpExp_lt prec emin hgt
      have := Int.log_mono_right (b := 2) (abs_pos.2 (ne_of_gt h1)) habs
      omega

/-- A representable number rounds to itself. -/
theorem roundNE_of_representable (prec : Nat) (emin : Int) {q : ℚ}
    (h : Representable prec emin q) : roundNE prec emin q = q := by
  obtain ⟨n, e, hn, he, rfl⟩ := h
  by_cases hn0 : n = 0
  · subst hn0
    simp only [Int.cast_zero, zero_mul]
    exact roundNE_zero prec emin
  · unfold roundNE
    apply roundAt_int_mul
    unfold ulpExp
    apply max_le _ he
    have hq : (n : ℚ) * (2 : ℚ) ^ e ≠ 0 :=
      mul_ne_zero (by exact_mod_cast hn0) (ne_of_gt (two_zpow_pos e))
    have hlt : |(n : ℚ) * (2 : ℚ) ^ e| < (2 : ℚ) ^ ((prec : Int) + e) := by
      rw [abs_mul, abs_of_pos (two_zpow_pos e), zpow_add₀ (by norm_num : (2 : ℚ) ≠ 0),
        zpow_natCast]
      apply mul_lt_mul_of_pos_right _ (two_zpow_pos e)
      have : ((|n| : Int) : ℚ) < ((2 ^ prec : Int) : ℚ) := by exact_mod_cast hn
      simpa using this
    have hlog : Int.log 2 |(n : ℚ) * (2 : ℚ) ^ e| < (prec : Int) + e := by
      have := (Int.lt_zpow_iff_log_lt (b := 2) (by norm_num) (abs_pos.2 hq)).1
        (by simpa using hlt)
      exact this
    omega

/-- The result of rounding is representable. -/
theorem representable_roundNE (prec : Nat) (emin : Int) (hp : 1 ≤ prec) (q : ℚ) :
    Representable prec emin (roundNE prec emin q) := by
  have h2 : (2 : ℚ) ≠ 0 := by norm_num
  have hE : emin ≤ ulpExp prec emin q := le_max_right _ _
  have hL : Int.log 2 |q| - ((prec : Int) - 1) ≤ ulpExp prec emin q := le_max_left _ _
  have hlt : |q| < (2 : ℚ) ^ (ulpExp prec emin q + (prec : Int)) :=
    abs_lt_zpow_of_log_lt (by omega)
  have hpe := two_zpow_pos (ulpExp prec emin q)
  have hsc : |q / (2 : ℚ) ^ ulpExp prec emin q| < ((2 ^ prec : Int) : ℚ) := by
    rw [abs_div, abs_of_pos hpe, div_lt_iff₀ hpe]
    rw [zpow_add₀ h2, zpow_natCast] at hlt
    push_cast
    linarith
  obtain ⟨hlo, hhi⟩ := abs_lt.1 hsc
  have b1 : roundHalfEven (q / (2 : ℚ) ^ ulpExp prec emin q) ≤ 2 ^ prec :=
    roundHalfEven_le_of_le hhi.le
  have b2 : -(2 ^ prec : Int) ≤ roundHalfEven (q / (2 : ℚ) ^ ulpExp prec emin q) :=
    le_roundHalfEven_of_le (by push_cast; push_cast at hlo; linarith)
  have hpow : (2 : Int) ^ prec = 2 * 2 ^ (prec - 1) := by
    rw [← pow_succ']
    congr 1
    omega
  have hpos : (0 : Int) < 2 ^ (prec - 1) := by positivity
  unfold roundNE roundAt
  rcases lt_or_eq_of_le b1 with c1 | c1
  · rcases lt_or_eq_of_le b2 with c2 | c2
    · exact ⟨_, _, abs_lt.2 ⟨c2, c1⟩, hE, rfl⟩
    · refine ⟨-2 ^ (prec - 1), ulpExp prec emin q + 1, ?_, by omega, ?_⟩
      · rw [abs_neg, abs_of_pos hpos, hpow]
        omega
      · rw [← c2, zpow_add₀ h2, hpow]
        push_cast
        ring
  · refine ⟨2 ^ (prec - 1), ulpExp prec emin q + 1, ?_, by omega, ?_⟩
    · rw [abs_of_pos hpos, hpow]
      omega
    · rw [c1, zpow_add₀ h2, hpow]
      push_cast
      ring

theorem roundNE_idem (prec : Nat) (emin : Int) (hp : 1 ≤ prec) (q : ℚ) :
    roundNE prec emin (roundNE prec emin q) = roundNE prec emin q :=
  roundNE_of_representable prec emin (representable_roundNE prec emin hp q)

theorem representable_intCast (prec : Nat) (emin : Int) (he : emin ≤ 0) (n : Int)
    (hn : |n| < 2 ^ prec) : Representable prec emin (n : ℚ) :=
  ⟨n, 0, hn, he, by simp⟩

theorem representable_half_add (prec : Nat) (emin : Int) (he : emin ≤ -1) (n : Int)
    (hn : |2 * n + 1| < 2 ^ prec) : Representable prec emin ((n : ℚ) + 1 / 2) := by
  refine ⟨2 * n + 1, -1, hn, he, ?_⟩
  rw [zpow_neg, zpow_one]
  push_cast
  ring

theorem f64_mono {q₁ q₂ : ℚ} (h : q₁ ≤ q₂) : f64 q₁ ≤ f64 q₂ :=
  roundNE_mono 53 (-1074) (by norm_num) h

theorem f64_of_representable {q : ℚ} (h : Representable 53 (-1074) q) : f64 q = q :=
  roundNE_of_representable 53 (-1074) h

theorem representable_f64 (q : ℚ) : Representable 53 (-1074) (f64 q) :=
  representable_roundNE 53 (-1074) (by norm_num) q

theorem f64_intCast (n : Int) (hn : |n| < 2 ^ 53) : f64 (n : ℚ) = n :=
  f64_of_representable (representable_intCast 53 (-1074) (by norm_num) n hn)

theorem f64_zero : f64 0 = 0 :=
  roundNE_zero 53 (-1074)

theorem f64_nonneg {q : ℚ} (h : 0 ≤ q) : 0 ≤ f64 q :=
  roundNE_nonneg 53 (-1074) h

theorem f64_nonpos {q : ℚ} (h : q ≤ 0) : f64 q ≤ 0 :=
  roundNE_nonpos 53 (-1074) h

theorem f64_le_of_le_intCast {q : ℚ} (n : Int) (hn : |n| < 2 ^ 53) (h : q ≤ n) :
    f64 q ≤ n := by
  have := f64_mono h
  rwa [f64_intCast n hn] at this

theorem le_f64_of_intCast_le {q : ℚ} (n : Int) (hn : |n| < 2 ^ 53) (h : (n : ℚ) ≤ q) :
    (n : ℚ) ≤ f64 q := by
  have := f64_mono h
  rwa [f64_intCast n hn] at this

theorem roundHalfEven_eq_of_near {x : ℚ} {m : Int} (h : |x - m| < 1 / 2) :
    roundHalfEven x = m := by
  obtain ⟨h1, h2⟩ := abs_lt.1 h
  have hf1 : m - 1 ≤ ⌊x⌋ := Int.le_floor.2 (by push_cast; linarith)
  have hf2 : ⌊x⌋ < m + 1 := Int.floor_lt.2 (by push_cast; linarith)
  have hfl := Int.floor_le x
  have hlf := Int.lt_floor_add_one x
  rcases (by omega : ⌊x⌋ = m ∨ ⌊x⌋ = m - 1) with e | e
  · unfold roundHalfEven
    rw [e, if_pos (by linarith)]
  · unfold roundHalfEven
    have e' : (⌊x⌋ : ℚ) = (m : ℚ) - 1 := by rw [e]; push_cast; ring
    rw [e', if_neg (by linarith), if_pos (by linarith), e]
    omega

/-- Evaluation of a rounding: for `2 ^ L <= |q| < 2 ^ (L + 1)` the unit in the last
place is `2 ^ e` with `e = max (L - (prec - 1)) emin`, and `q` rounds to the multiple
`m * 2 ^ e` it is less than half a unit from. -/
theorem roundNE_eq_of_near (prec : Nat) (emin : Int) (q : ℚ) (L e m : Int)
    (hl : (2 : ℚ) ^ L ≤ |q|) (hu : |q| < (2 : ℚ) ^ (L + 1))
    (he : e = max (L - ((prec : Int) - 1)) emin) (hm : |q / (2 : ℚ) ^ e - m| < 1 / 2) :
    roundNE prec emin q = (m : ℚ) * (2 : ℚ) ^ e := by
  have hq : 0 < |q| := lt_of_lt_of_le (two_zpow_pos L) hl
  have h1 : L ≤ Int.log 2 |q| :=
    (Int.zpow_le_iff_le_log (b := 2) (by norm_num) hq).1 (by simpa using hl)
  have h2 : Int.log 2 |q| < L + 1 :=
    (Int.lt_zpow_iff_log_lt (b := 2) (by norm_num) hq).1 (by simpa using hu)
  have hlog : Int.log 2 |q| = L := by omega
  unfold roundNE roundAt ulpExp
  rw [hlog, ← he, roundHalfEven_eq_of_near hm]

/-! ## What `update` and `draw` compute -/

theorem updateLoop_append (env : Env M) (dt : Dbl) (post : List M) :
    ∀ (pre : List M) (trace : List (Event M)),
      MeteorMgr.updateLoop env dt pre.length (pre ++ post) trace =
        some (pre ++ survivors env dt post, trace ++ advanceTrace env dt post) := by
  induction post with
  | nil =>
    intro pre trace
    rw [MeteorMgr.updateLoop]
    simp [survivors, advanceTrace]
  | cons m rest ih =>
    intro pre trace
    rw [MeteorMgr.updateLoop]
    have h1 : ¬ ((pre.length : Int) = ((pre ++ m :: rest).length : Int)) := by
      simp
      omega
    have h2 : 0 ≤ (pre.length : Int) ∧ (pre.length : Int) < (pre ++ m :: rest).length := by
      simp
    rw [if_neg h1, dif_pos h2]
    simp only [Int.toNat_ofNat, List.get_eq_getElem, List.getElem_append_right (Nat.le_refl _),
      Nat.sub_self, List.getElem_cons_zero]
    cases hr : (env.meteorUpdate m dt).2 with
    | false =>
      have he : (pre ++ m :: rest).eraseIdx pre.length = pre ++ rest := by
        rw [List.eraseIdx_append_of_length_le (Nat.le_refl _)]
        simp
      have hi : ((pre.length : Int) - 1 + 1) = (pre.length : Int) := by omega
      simp only [Bool.not_false, if_true, he, hi]
      rw [ih pre]
      simp [survivors, advanceTrace, hr]
    | true =>
      have hs : (pre ++ m :: rest).set pre.length (env.meteorUpdate m dt).1 =
          (pre ++ [(env.meteorUpdate m dt).1]) ++ rest := by
        rw [List.set_append_right _ _ (Nat.le_refl _)]
        simp
      have hi : ((pre.length : Int) + 1) = ((pre ++ [(env.meteorUpdate m dt).1]).length : Int) := by
        simp
      simp only [Bool.not_true, hs, hi]
      rw [ih]
      simp [survivors, advanceTrace, hr]

theorem updateLoop_zero (env : Env M) (dt : Dbl) (active : List M) :
    MeteorMgr.updateLoop env dt 0 active [] =
      some (survivors env dt active, advanceTrace env dt active) := by
  simpa using updateLoop_append env dt active [] []

theorem spawnLoop_eq (env : Env M) (s : MeteorMgr M) (dt : Dbl) (mpf : Int) (n : Nat) :
    ∀ (i : Nat) (active : List M) (trace : List (Event M)),
      MeteorMgr.spawnLoop env s dt mpf n i active trace =
        (active ++ (launched env s dt mpf n i).map (fun j => env.newMeteor j s.max_velocity),
          trace ++ spawnTrace env s dt mpf n i) := by
  induction n with
  | zero =>
    intro i active trace
    simp [MeteorMgr.spawnLoop, launched, spawnTrace]
  | succ n ih =>
    intro i active trace
    by_cases h : s.ZHR > 0 ∧
        Dbl.lt (MeteorMgr.prob env i) (MeteorMgr.threshold s dt mpf) = true
    · have hl : launches env s dt mpf i = true := by simp [launches, h]
      simp only [MeteorMgr.spawnLoop, if_pos h, ih]
      simp [launched, spawnTrace, hl, List.range'_succ]
    · have hl : launches env s dt mpf i = false := by simp only [launches, h, decide_False]
      simp only [MeteorMgr.spawnLoop, if_neg h, ih]
      simp [launched, spawnTrace, hl, List.range'_succ]

theorem update_gate_closed (env : Env M) (s : MeteorMgr M) (dt : Dbl)
    (h : Dbl.le (Dbl.mul env.getTimeSpeed (Dbl.fin 86400)) (Dbl.fin 0) = true ∨
      Dbl.lt (Dbl.fin 1) (Dbl.abs (Dbl.mul env.getTimeSpeed (Dbl.fin 86400))) = true) :
    MeteorMgr.update env s dt =
      some ({ s with active := survivors env (Dbl.mul dt (Dbl.fin 1000)) s.active },
        advanceTrace env (Dbl.mul dt (Dbl.fin 1000)) s.active) := by
  simp only [MeteorMgr.update, updateLoop_zero, if_pos h]

theorem update_gate_open (env : Env M) (s : MeteorMgr M) (dt : Dbl)
    (h : ¬ (Dbl.le (Dbl.mul env.getTimeSpeed (Dbl.fin 86400)) (Dbl.fin 0) = true ∨
      Dbl.lt (Dbl.fin 1) (Dbl.abs (Dbl.mul env.getTimeSpeed (Dbl.fin 86400))) = true)) :
    MeteorMgr.update env s dt =
      some ({ s with active := (survivors env (Dbl.mul dt (Dbl.fin 1000)) s.active ++
                (launched env s (MeteorMgr.clampDelta (Dbl.mul dt (Dbl.fin 1000)))
                  (MeteorMgr.mpf env s (MeteorMgr.clampDelta (Dbl.mul dt (Dbl.fin 1000))))
                  (MeteorMgr.mpf env s (MeteorMgr.clampDelta (Dbl.mul dt (Dbl.fin 1000)))).toNat 0).map
                  (fun j => env.newMeteor j s.max_velocity)) },
        advanceTrace env (Dbl.mul dt (Dbl.fin 1000)) s.active ++
          spawnTrace env s (MeteorMgr.clampDelta (Dbl.mul dt (Dbl.fin 1000)))
            (MeteorMgr.mpf env s (MeteorMgr.clampDelta (Dbl.mul dt (Dbl.fin 1000))))
            (MeteorMgr.mpf env s (MeteorMgr.clampDelta (Dbl.mul dt (Dbl.fin 1000)))).toNat 0) := by
  simp only [MeteorMgr.update, updateLoop_zero, if_neg h, spawnLoop_eq]

theorem advanceTrace_updateCall (env : Env M) (dt : Dbl) (active : List M) :
    (advanceTrace env dt active).filterMap Event.updateCall = active.map (fun m => (m, dt)) := by
  induction active with
  | nil => simp [advanceTrace]
  | cons m rest ih =>
    by_cases h : (env.meteorUpdate m dt).2 = true <;>
      simp [advanceTrace, h, List.filterMap_cons, Event.updateCall, ih]

theorem advanceTrace_deleted (env : Env M) (dt : Dbl) (active : List M) :
    (advanceTrace env dt active).filterMap Event.deleted = expired env dt active := by
  induction active with
  | nil => simp [advanceTrace, expired]
  | cons m rest ih =>
    simp only [expired] at ih
    by_cases h : (env.meteorUpdate m dt).2 = true <;>
      simp [advanceTrace, expired, h, List.filterMap_cons, Event.deleted, ih]

theorem advanceTrace_trial (env : Env M) (dt : Dbl) (active : List M) :
    (advanceTrace env dt active).filterMap Event.trial = [] := by
  induction active with
  | nil => simp [advanceTrace]
  | cons m rest ih =>
    by_cases h : (env.meteorUpdate m dt).2 = true <;>
      simp [advanceTrace, h, List.filterMap_cons, Event.trial, ih]

theorem advanceTrace_created (env : Env M) (dt : Dbl) (active : List M) :
    (advanceTrace env dt active).filterMap Event.created = [] := by
  induction active with
  | nil => simp [advanceTrace]
  | cons m rest ih =>
    by_cases h : (env.meteorUpdate m dt).2 = true <;>
      simp [advanceTrace, h, List.filterMap_cons, Event.created, ih]

theorem spawnTrace_updateCall (env : Env M) (s : MeteorMgr M) (dt : Dbl) (mpf : Int) (n : Nat) :
    ∀ i, (spawnTrace env s dt mpf n i).filterMap Event.updateCall = [] := by
  induction n with
  | zero => intro i; simp [spawnTrace]
  | succ n ih =>
    intro i
    by_cases h : launches env s dt mpf i = true <;>
      simp [spawnTrace, h, List.filterMap_cons, Event.updateCall, ih]

theorem spawnTrace_deleted (env : Env M) (s : MeteorMgr M) (dt : Dbl) (mpf : Int) (n : Nat) :
    ∀ i, (spawnTrace env s dt mpf n i).filterMap Event.deleted = [] := by
  induction n with
  | zero => intro i; simp [spawnTrace]
  | succ n ih =>
    intro i
    by_cases h : launches env s dt mpf i = true <;>
      simp [spawnTrace, h, List.filterMap_cons, Event.deleted, ih]

theorem spawnTrace_trial (env : Env M) (s : MeteorMgr M) (dt : Dbl) (mpf : Int) (n : Nat) :
    ∀ i, (spawnTrace env s dt mpf n i).filterMap Event.trial = List.range' i n := by
  induction n with
  | zero => intro i; simp [spawnTrace]
  | succ n ih =>
    intro i
    by_cases h : launches env s dt mpf i = true <;>
      simp [spawnTrace, h, List.filterMap_cons, Event.trial, ih, List.range'_succ]

theorem spawnTrace_created (env : Env M) (s : MeteorMgr M) (dt : Dbl) (mpf : Int) (n : Nat) :
    ∀ i, (spawnTrace env s dt mpf n i).filterMap Event.created =
      (launched env s dt mpf n i).map (fun j => (j, s.max_velocity)) := by
  induction n with
  | zero => intro i; simp [spawnTrace, launched]
  | succ n ih =>
    intro i
    have ih1 := ih (i + 1)
    simp only [launched] at ih1
    by_cases h : launches env s dt mpf i = true <;>
      simp [spawnTrace, launched, h, List.filterMap_cons, Event.created, ih1, List.range'_succ]


theorem launched_eq_nil (env : Env M) (s : MeteorMgr M) (dt : Dbl) (mpf : Int) (n i : Nat)
    (h : ∀ j, launches env s dt mpf j = false) : launched env s dt mpf n i = [] := by
  simp [launched, List.filter_eq_nil_iff, h]

theorem mpf_pos (env : Env M) (s : MeteorMgr M) (d : Dbl) : 1 ≤ MeteorMgr.mpf env s d := by
  unfold MeteorMgr.mpf
  simp only
  split
  · exact le_refl 1
  · omega

theorem launches_false_of_rate_zero (env : Env M) (s : MeteorMgr M) (dt : Dbl) (mpf : Int)
    (i : Nat) (h : s.ZHR ≤ 0) : launches env s dt mpf i = false := by
  unfold launches
  rw [decide_eq_false_iff_not]
  intro hc
  omega

theorem update_some (env : Env M) (s : MeteorMgr M) (dt : Dbl) :
    ∃ active tr, MeteorMgr.update env s dt = some ({ s with active := active }, tr) := by
  by_cases h : Dbl.le (Dbl.mul env.getTimeSpeed (Dbl.fin 86400)) (Dbl.fin 0) = true ∨
      Dbl.lt (Dbl.fin 1) (Dbl.abs (Dbl.mul env.getTimeSpeed (Dbl.fin 86400))) = true
  · exact ⟨_, _, update_gate_closed env s dt h⟩
  · exact ⟨_, _, update_gate_open env s dt h⟩

theorem drawLoop_fst (denv : DrawEnv M) (l : List M) :
    (MeteorMgr.drawLoop denv l).1 = l.map denv.meteorDraw := by
  induction l with
  | nil => rfl
  | cons m rest ih => simp [MeteorMgr.drawLoop, ih]

theorem drawLoop_snd (denv : DrawEnv M) (l : List M) :
    (MeteorMgr.drawLoop denv l).2.filterMap DrawEvent.drawCall = l := by
  induction l with
  | nil => rfl
  | cons m rest ih => simp [MeteorMgr.drawLoop, List.filterMap_cons, DrawEvent.drawCall, ih]

theorem launched_pairwise (env : Env M) (s : MeteorMgr M) (dt : Dbl) (mpf : Int) (n i : Nat) :
    (launched env s dt mpf n i).Pairwise (fun a b => a < b) :=
  List.Pairwise.filter _ (List.pairwise_lt_range' i n)

theorem launched_length_le (env : Env M) (s : MeteorMgr M) (dt : Dbl) (mpf : Int) (n i : Nat) :
    (launched env s dt mpf n i).length ≤ n := by
  unfold launched
  exact (List.length_filter_le _ _).trans (by simp)

/-! ## Signs and bounds of `double` results -/

theorem ofRat_cases (q : ℚ) :
    (Dbl.ofRat q = Dbl.pinf ∧ (2 : ℚ) ^ 1024 ≤ f64 q) ∨
      (Dbl.ofRat q = Dbl.ninf ∧ f64 q ≤ -(2 : ℚ) ^ 1024) ∨
      (Dbl.ofRat q = Dbl.fin (f64 q) ∧ -(2 : ℚ) ^ 1024 < f64 q ∧ f64 q < (2 : ℚ) ^ 1024) := by
  unfold Dbl.ofRat
  by_cases h1 : (2 : ℚ) ^ 1024 ≤ f64 q
  · exact Or.inl ⟨if_pos h1, h1⟩
  · by_cases h2 : f64 q ≤ -(2 : ℚ) ^ 1024
    · exact Or.inr (Or.inl ⟨by rw [if_neg h1, if_pos h2], h2⟩)
    · exact Or.inr (Or.inr ⟨by rw [if_neg h1, if_neg h2], not_le.1 h2, not_le.1 h1⟩)

theorem ofRat_eq_fin (q : ℚ) (h1 : -(2 : ℚ) ^ 1024 < f64 q) (h2 : f64 q < (2 : ℚ) ^ 1024) :
    Dbl.ofRat q = Dbl.fin (f64 q) := by
  unfold Dbl.ofRat
  rw [if_neg (not_le.2 h2), if_neg (not_le.2 h1)]

theorem ofRat_eq_fin_of_bounds (q : ℚ) (lo hi : Int) (hlo : |lo| < 2 ^ 53) (hhi : |hi| < 2 ^ 53)
    (h1 : (lo : ℚ) ≤ q) (h2 : q ≤ hi) :
    Dbl.ofRat q = Dbl.fin (f64 q) ∧ (lo : ℚ) ≤ f64 q ∧ f64 q ≤ hi := by
  have b1 := le_f64_of_intCast_le lo hlo h1
  have b2 := f64_le_of_le_intCast hi hhi h2
  have c1 : |(lo : ℚ)| < 2 ^ 53 := by exact_mod_cast hlo
  have c2 : |(hi : ℚ)| < 2 ^ 53 := by exact_mod_cast hhi
  have c3 : (2 : ℚ) ^ 53 < 2 ^ 1024 := by norm_num
  refine ⟨ofRat_eq_fin q ?_ ?_, b1, b2⟩
  · have := (abs_lt.1 c1).1
    linarith
  · have := (abs_lt.1 c2).2
    linarith

theorem ofInt_eq_fin (n : Int) (hn : |n| < 2 ^ 53) : Dbl.ofInt n = Dbl.fin n := by
  unfold Dbl.ofInt
  have := ofRat_eq_fin_of_bounds (n : ℚ) n n hn hn (le_refl _) (le_refl _)
  rw [this.1, f64_intCast n hn]

theorem notPos_ofRat {q : ℚ} (h : q ≤ 0) : Dbl.lt (Dbl.fin 0) (Dbl.ofRat q) = false := by
  have hf := f64_nonpos h
  have hp : (0 : ℚ) < 2 ^ 1024 := by positivity
  rcases ofRat_cases q with ⟨_, c⟩ | ⟨e, _⟩ | ⟨e, _, _⟩
  · exfalso; linarith
  · rw [e]; rfl
  · rw [e]
    simp only [Dbl.lt, decide_eq_false_iff_not, not_lt]
    exact hf

theorem notNeg_ofRat {q : ℚ} (h : 0 ≤ q) : Dbl.lt (Dbl.ofRat q) (Dbl.fin 0) = false := by
  have hf := f64_nonneg h
  have hp : (0 : ℚ) < 2 ^ 1024 := by positivity
  rcases ofRat_cases q with ⟨e, _⟩ | ⟨_, c⟩ | ⟨e, _, _⟩
  · rw [e]; rfl
  · exfalso; linarith
  · rw [e]
    simp only [Dbl.lt, decide_eq_false_iff_not, not_lt]
    exact hf

theorem pos_ofRat {q : ℚ} (h : 1 ≤ q) : Dbl.lt (Dbl.fin 0) (Dbl.ofRat q) = true := by
  have hf : (1 : ℚ) ≤ f64 q := by
    have := le_f64_of_intCast_le 1 (by norm_num) (by simpa using h)
    simpa using this
  have hp : (0 : ℚ) < 2 ^ 1024 := by positivity
  rcases ofRat_cases q with ⟨e, _⟩ | ⟨_, c⟩ | ⟨e, _, _⟩
  · rw [e]; rfl
  · exfalso; linarith
  · rw [e]
    simp only [Dbl.lt, decide_eq_true_eq]
    linarith

theorem notPos_cases {x : Dbl} (h : Dbl.lt (Dbl.fin 0) x = false) :
    x = Dbl.nan ∨ x = Dbl.ninf ∨ ∃ q, x = Dbl.fin q ∧ q ≤ 0 := by
  cases x with
  | nan => exact Or.inl rfl
  | ninf => exact Or.inr (Or.inl rfl)
  | pinf => simp [Dbl.lt] at h
  | fin q =>
    simp only [Dbl.lt, decide_eq_false_iff_not, not_lt] at h
    exact Or.inr (Or.inr ⟨q, rfl, h⟩)

theorem notNeg_cases {x : Dbl} (h : Dbl.lt x (Dbl.fin 0) = false) :
    x = Dbl.nan ∨ x = Dbl.pinf ∨ ∃ q, x = Dbl.fin q ∧ 0 ≤ q := by
  cases x with
  | nan => exact Or.inl rfl
  | pinf => exact Or.inr (Or.inl rfl)
  | ninf => simp [Dbl.lt] at h
  | fin q =>
    simp only [Dbl.lt, decide_eq_false_iff_not, not_lt] at h
    exact Or.inr (Or.inr ⟨q, rfl, h⟩)

theorem pos_cases {x : Dbl} (h : Dbl.lt (Dbl.fin 0) x = true) :
    x = Dbl.pinf ∨ ∃ q, x = Dbl.fin q ∧ 0 < q := by
  cases x with
  | nan => simp [Dbl.lt] at h
  | ninf => simp [Dbl.lt] at h
  | pinf => exact Or.inl rfl
  | fin q =>
    simp only [Dbl.lt, decide_eq_true_eq] at h
    exact Or.inr ⟨q, rfl, h⟩

theorem lt_false_of_notNeg_notPos {a b : Dbl} (ha : Dbl.lt a (Dbl.fin 0) = false)
    (hb : Dbl.lt (Dbl.fin 0) b = false) : Dbl.lt a b = false := by
  rcases notNeg_cases ha with rfl | rfl | ⟨p, rfl, hp⟩ <;>
    rcases notPos_cases hb with rfl | rfl | ⟨d, rfl, hd⟩ <;>
    simp only [Dbl.lt]
  simp only [decide_eq_false_iff_not, not_lt]
  linarith

theorem mul_notNeg {a b : Dbl} (ha : Dbl.lt a (Dbl.fin 0) = false)
    (hb : Dbl.lt b (Dbl.fin 0) = false) : Dbl.lt (Dbl.mul a b) (Dbl.fin 0) = false := by
  rcases notNeg_cases ha with rfl | rfl | ⟨p, rfl, hp⟩ <;>
    rcases notNeg_cases hb with rfl | rfl | ⟨d, rfl, hd⟩ <;>
    simp only [Dbl.mul, Dbl.lt]
  · split_ifs <;> first | rfl | (exfalso; linarith)
  · split_ifs <;> first | rfl | (exfalso; linarith)
  · exact notNeg_ofRat (mul_nonneg hp hd)

theorem mul_notPos {a b : Dbl} (ha : Dbl.lt a (Dbl.fin 0) = false)
    (hb : Dbl.lt (Dbl.fin 0) b = false) : Dbl.lt (Dbl.fin 0) (Dbl.mul a b) = false := by
  rcases notNeg_cases ha with rfl | rfl | ⟨p, rfl, hp⟩ <;>
    rcases notPos_cases hb with rfl | rfl | ⟨d, rfl, hd⟩ <;>
    simp only [Dbl.mul, Dbl.lt]
  · split_ifs <;> first | rfl | (exfalso; linarith)
  · split_ifs <;> first | rfl | (exfalso; linarith)
  · exact notPos_ofRat (mul_nonpos_of_nonneg_of_nonpos hp hd)

theorem div_notPos {a b : Dbl} (ha : Dbl.lt (Dbl.fin 0) a = false)
    (hb : Dbl.lt (Dbl.fin 0) b = true) : Dbl.lt (Dbl.fin 0) (Dbl.div a b) = false := by
  rcases notPos_cases ha with rfl | rfl | ⟨d, rfl, hd⟩ <;>
    rcases pos_cases hb with rfl | ⟨c, rfl, hc⟩ <;>
    simp only [Dbl.div, Dbl.lt]
  · rw [if_pos hc.le]
  · simp
  · rw [if_neg (ne_of_gt hc)]
    exact notPos_ofRat (div_nonpos_of_nonpos_of_nonneg hd hc.le)

theorem div_notNeg {a b : Dbl} (ha : Dbl.lt a (Dbl.fin 0) = false)
    (hb : Dbl.lt (Dbl.fin 0) b = true) : Dbl.lt (Dbl.div a b) (Dbl.fin 0) = false := by
  rcases notNeg_cases ha with rfl | rfl | ⟨p, rfl, hp⟩ <;>
    rcases pos_cases hb with rfl | ⟨c, rfl, hc⟩ <;>
    simp only [Dbl.div, Dbl.lt]
  · rw [if_pos hc.le]
  · simp
  · rw [if_neg (ne_of_gt hc)]
    exact notNeg_ofRat (div_nonneg hp hc.le)

theorem notNeg_ofInt {n : Int} (h : 0 ≤ n) : Dbl.lt (Dbl.ofInt n) (Dbl.fin 0) = false :=
  notNeg_ofRat (by exact_mod_cast h)

theorem pos_ofInt {n : Int} (h : 1 ≤ n) : Dbl.lt (Dbl.fin 0) (Dbl.ofInt n) = true :=
  pos_ofRat (by exact_mod_cast h)

theorem pos_add_one {a : Dbl} (ha : Dbl.lt a (Dbl.fin 0) = false) (hn : a ≠ Dbl.nan) :
    Dbl.lt (Dbl.fin 0) (Dbl.add a (Dbl.fin 1)) = true := by
  rcases notNeg_cases ha with rfl | rfl | ⟨p, rfl, hp⟩
  · exact absurd rfl hn
  · rfl
  · simp only [Dbl.add]
    exact pos_ofRat (by linarith)

theorem ofRat_ne_nan (q : ℚ) : Dbl.ofRat q ≠ Dbl.nan := by
  rcases ofRat_cases q with ⟨e, _⟩ | ⟨e, _⟩ | ⟨e, _⟩ <;> rw [e] <;> simp

theorem probOf_notNeg (R r : Nat) : Dbl.lt (MeteorMgr.probOf R r) (Dbl.fin 0) = false := by
  unfold MeteorMgr.probOf
  exact div_notNeg (notNeg_ofInt (Int.natCast_nonneg r))
    (pos_add_one (notNeg_ofInt (Int.natCast_nonneg R)) (ofRat_ne_nan _))

theorem prob_notNeg (env : Env M) (i : Nat) :
    Dbl.lt (MeteorMgr.prob env i) (Dbl.fin 0) = false :=
  probOf_notNeg _ _

theorem notPos_mul_thousand {d : Dbl} (h : Dbl.le d (Dbl.fin 0) = true) :
    Dbl.lt (Dbl.fin 0) (Dbl.mul d (Dbl.fin 1000)) = false := by
  cases d with
  | nan => simp [Dbl.le] at h
  | pinf => simp [Dbl.le] at h
  | ninf => simp [Dbl.mul, Dbl.lt]
  | fin q =>
    simp only [Dbl.le, decide_eq_true_eq] at h
    simp only [Dbl.mul]
    exact notPos_ofRat (by linarith)

theorem clampDelta_notPos {x : Dbl} (h : Dbl.lt (Dbl.fin 0) x = false) :
    Dbl.lt (Dbl.fin 0) (MeteorMgr.clampDelta x) = false := by
  unfold MeteorMgr.clampDelta
  rcases notPos_cases h with rfl | rfl | ⟨q, rfl, hq⟩
  · rfl
  · rfl
  · have : Dbl.lt (Dbl.fin 500) (Dbl.fin q) = false := by
      simp only [Dbl.lt, decide_eq_false_iff_not, not_lt]
      linarith
    rw [this]
    simpa using h

theorem rate_notPos (s : MeteorMgr M) {dt : Dbl} (hz : 0 ≤ s.ZHR) (hk : 0 ≤ s.zhr_to_wsr)
    (hd : Dbl.lt (Dbl.fin 0) dt = false) :
    Dbl.lt (Dbl.fin 0) (MeteorMgr.rate s dt) = false := by
  unfold MeteorMgr.rate
  refine div_notPos (mul_notPos (mul_notNeg (notNeg_ofInt hz) ?_) hd) ?_
  · simp only [Dbl.lt, decide_eq_false_iff_not, not_lt]
    exact hk
  · simp [Dbl.lt]

theorem launches_false_of_delta_notPos (env : Env M) (s : MeteorMgr M) (dt : Dbl) (mpf : Int)
    (i : Nat) (hk : 0 ≤ s.zhr_to_wsr) (hd : Dbl.lt (Dbl.fin 0) dt = false) (hm : 1 ≤ mpf) :
    launches env s dt mpf i = false := by
  unfold launches
  rw [decide_eq_false_iff_not]
  rintro ⟨hz, hlt⟩
  have h3 : Dbl.lt (Dbl.fin 0) (MeteorMgr.threshold s dt mpf) = false := by
    unfold MeteorMgr.threshold
    exact div_notPos (rate_notPos s hz.le hk hd) (pos_ofInt hm)
  rw [lt_false_of_notNeg_notPos (prob_notNeg env i) h3] at hlt
  exact Bool.false_ne_true hlt

theorem clampDelta_of_half_le {d : Dbl} (h : Dbl.le (Dbl.fin (1 / 2)) d = true) :
    MeteorMgr.clampDelta (Dbl.mul d (Dbl.fin 1000)) = Dbl.fin 500 := by
  unfold MeteorMgr.clampDelta
  cases d with
  | nan => simp [Dbl.le] at h
  | ninf => simp [Dbl.le] at h
  | pinf => simp [Dbl.mul, Dbl.lt]
  | fin q =>
    simp only [Dbl.le, decide_eq_true_eq] at h
    simp only [Dbl.mul]
    have hf : (500 : ℚ) ≤ f64 (q * 1000) := by
      have := le_f64_of_intCast_le (q := q * 1000) 500 (by norm_num) (by push_cast; linarith)
      simpa using this
    have hp : (0 : ℚ) < 2 ^ 1024 := by positivity
    rcases ofRat_cases (q * 1000) with ⟨e, _⟩ | ⟨_, c⟩ | ⟨e, _, _⟩
    · rw [e]; rfl
    · exfalso; linarith
    · rw [e]
      by_cases hgt : (500 : ℚ) < f64 (q * 1000)
      · simp [Dbl.lt, hgt]
      · have : f64 (q * 1000) = 500 := le_antisymm (not_lt.1 hgt) hf
        simp [Dbl.lt, this]

/-! ## Truncating `x + 0.5` against rounding `x` half up -/

theorem representable_add_half {x : ℚ} (hx : Representable 53 (-1074) x) (h1 : 1 ≤ x)
    (h31 : x < 2 ^ 31) (hfr : x + 1 / 2 < (⌊x⌋ : ℚ) + 1) :
    Representable 53 (-1074) (x + 1 / 2) := by
  obtain ⟨a, e, ha, he, hxe⟩ := hx
  have h2 : (2 : ℚ) ≠ 0 := by norm_num
  have hapos : 0 < a := by
    by_contra hc
    have : (a : ℚ) ≤ 0 := by exact_mod_cast not_lt.1 hc
    have := mul_nonpos_of_nonpos_of_nonneg this (two_zpow_pos e).le
    linarith
  have ha' : a < 2 ^ 53 := (abs_lt.1 ha).2
  rcases le_or_lt (-1) e with hge | hlt
  · -- x + 1/2 = (a * 2 ^ (e + 1) + 1) * 2 ^ (-1)
    obtain ⟨k, hk⟩ : ∃ k : Nat, e = -1 + k := ⟨(e + 1).toNat, by omega⟩
    have hx2 : x = ((a * 2 ^ k : Int) : ℚ) * (2 : ℚ) ^ (-1 : Int) := by
      rw [hxe, hk, zpow_add₀ h2, zpow_natCast]
      push_cast
      ring
    have hb : ((a * 2 ^ k : Int) : ℚ) < 2 ^ 32 := by
      have : ((a * 2 ^ k : Int) : ℚ) = 2 * x := by
        rw [hx2, zpow_neg, zpow_one]
        ring
      rw [this]
      linarith
    have hb' : a * 2 ^ k < 2 ^ 32 := by exact_mod_cast hb
    have hb0 : 0 ≤ a * 2 ^ k := by positivity
    refine ⟨a * 2 ^ k + 1, -1, ?_, by norm_num, ?_⟩
    · rw [abs_of_nonneg (by omega)]
      omega
    · rw [hx2, zpow_neg, zpow_one]
      push_cast
      ring
  · -- x + 1/2 = (a + 2 ^ (-1 - e)) * 2 ^ e
    obtain ⟨k, hk⟩ : ∃ k : Nat, e = -(k : Int) - 1 := ⟨(-e - 1).toNat, by omega⟩
    have hk1 : 1 ≤ k := by omega
    have hpk : (0 : ℚ) < 2 ^ (k + 1) := by positivity
    have hxe' : x = (a : ℚ) / 2 ^ (k + 1) := by
      rw [hxe, hk, show -(k : Int) - 1 = -((k + 1 : Nat) : Int) by push_cast; ring, zpow_neg,
        zpow_natCast]
      ring
    have hk52 : k + 1 ≤ 53 := by
      by_contra hc
      have h54 : (2 : ℚ) ^ 54 ≤ 2 ^ (k + 1) := pow_le_pow_right₀ (by norm_num) (by omega)
      have haq : (a : ℚ) < 2 ^ 53 := by exact_mod_cast ha'
      have : x < 1 := by
        rw [hxe', div_lt_one hpk]
        have : (2 : ℚ) ^ 53 < 2 ^ 54 := by norm_num
        linarith
      linarith
    obtain ⟨j, hj⟩ : ∃ j : Nat, 53 = (k + 1) + j := ⟨53 - (k + 1), by omega⟩
    have hT : (2 : Int) ^ 53 = 2 ^ (k + 1) * 2 ^ j := by rw [hj, pow_add]
    -- x < 2 ^ j, an integer, so ⌊x⌋ + 1 ≤ 2 ^ j
    have hxT : x < ((2 ^ j : Int) : ℚ) := by
      rw [hxe', div_lt_iff₀ hpk]
      have : (a : ℚ) < ((2 ^ (k + 1) * 2 ^ j : Int) : ℚ) := by
        rw [← hT]
        exact_mod_cast ha'
      push_cast at this ⊢
      linarith
    have hfl : ⌊x⌋ + 1 ≤ 2 ^ j := by
      have : ⌊x⌋ < 2 ^ j := Int.floor_lt.2 hxT
      omega
    have hfl' : ((⌊x⌋ : ℚ) + 1) ≤ ((2 ^ j : Int) : ℚ) := by exact_mod_cast hfl
    have hsum : x + 1 / 2 = ((a + 2 ^ k : Int) : ℚ) / 2 ^ (k + 1) := by
      rw [hxe', pow_succ]
      push_cast
      field_simp
      ring
    have hlt2 : ((a + 2 ^ k : Int) : ℚ) < ((2 ^ 53 : Int) : ℚ) := by
      have h3 : x + 1 / 2 < ((2 ^ j : Int) : ℚ) := lt_of_lt_of_le hfr hfl'
      rw [hsum, div_lt_iff₀ hpk] at h3
      rw [hT]
      push_cast at h3 ⊢
      linarith
    have hlt3 : a + 2 ^ k < 2 ^ 53 := by exact_mod_cast hlt2
    have hp2 : (0 : Int) < 2 ^ k := by positivity
    refine ⟨a + 2 ^ k, e, ?_, he, ?_⟩
    · rw [abs_of_nonneg (by omega)]
      exact hlt3
    · rw [hsum, hk, show -(k : Int) - 1 = -((k + 1 : Nat) : Int) by push_cast; ring, zpow_neg,
        zpow_natCast]
      ring

/-- For a `double` `x` in `[0, 2 ^ 31)`, truncating the `double` sum `x + 0.5` gives the
same trial count as rounding `x` half up, once both are raised to at least 1. -/
theorem max_one_floor_f64_add_half {x : ℚ} (hx : Representable 53 (-1074) x) (h0 : 0 ≤ x)
    (h31 : x < 2 ^ 31) : max 1 ⌊f64 (x + 1 / 2)⌋ = max 1 (round x) := by
  rw [round_eq]
  have hn0 : 0 ≤ ⌊x + 1 / 2⌋ := Int.floor_nonneg.2 (by linarith)
  have hnle : (⌊x + 1 / 2⌋ : ℚ) ≤ x + 1 / 2 := Int.floor_le _
  have hnlt : x + 1 / 2 < (⌊x + 1 / 2⌋ : ℚ) + 1 := Int.lt_floor_add_one _
  have hnb : ⌊x + 1 / 2⌋ < 2 ^ 31 + 1 := by
    have : ((⌊x + 1 / 2⌋ : Int) : ℚ) < ((2 ^ 31 + 1 : Int) : ℚ) := by
      push_cast
      linarith
    exact_mod_cast this
  have hlo : (⌊x + 1 / 2⌋ : ℚ) ≤ f64 (x + 1 / 2) :=
    le_f64_of_intCast_le _ (by rw [abs_of_nonneg hn0]; omega) hnle
  have hhi : f64 (x + 1 / 2) ≤ ((⌊x + 1 / 2⌋ + 1 : Int) : ℚ) :=
    f64_le_of_le_intCast _ (by rw [abs_of_nonneg (by omega)]; omega)
      (by push_cast; linarith)
  have hfl1 : ⌊x + 1 / 2⌋ ≤ ⌊f64 (x + 1 / 2)⌋ := Int.le_floor.2 hlo
  have hfl2 : ⌊f64 (x + 1 / 2)⌋ ≤ ⌊x + 1 / 2⌋ + 1 := by
    have := Int.floor_mono hhi
    rwa [Int.floor_intCast] at this
  rcases eq_or_lt_of_le hn0 with hz | hpos
  · -- both sides are 1
    rw [← hz] at hfl1 hfl2 ⊢
    rcases (by omega : ⌊f64 (x + 1 / 2)⌋ = 0 ∨ ⌊f64 (x + 1 / 2)⌋ = 1) with e | e
    · rw [e]
    · rw [e]
      rfl
  · -- a representable number in `[x + 1/2, n + 1)` bounds the rounded sum
    have key : ∃ r, Representable 53 (-1074) r ∧ x + 1 / 2 ≤ r ∧ r < (⌊x + 1 / 2⌋ : ℚ) + 1 := by
      have hm0 := Int.floor_le x
      have hm1 := Int.lt_floor_add_one x
      rcases le_or_lt (1 / 2) (x - ⌊x⌋) with hA | hB
      · have hn : ⌊x + 1 / 2⌋ = ⌊x⌋ + 1 := by
          rw [Int.floor_eq_iff]
          push_cast
          constructor <;> linarith
        refine ⟨(⌊x + 1 / 2⌋ : ℚ) + 1 / 2, representable_half_add 53 (-1074) (by norm_num) _ ?_,
          ?_, by linarith⟩
        · rw [abs_of_nonneg (by omega)]
          omega
        · rw [hn]
          push_cast
          linarith
      · have hn : ⌊x + 1 / 2⌋ = ⌊x⌋ := by
          rw [Int.floor_eq_iff]
          constructor <;> linarith
        have hx1 : 1 ≤ x := by
          have : (1 : ℚ) ≤ (⌊x⌋ : ℚ) := by
            rw [← hn]
            exact_mod_cast hpos
          linarith
        refine ⟨x + 1 / 2, representable_add_half hx hx1 h31 (by linarith), le_refl _, hnlt⟩
    obtain ⟨r, hr, hr1, hr2⟩ := key
    have hfr : f64 (x + 1 / 2) ≤ r := by
      have := f64_mono hr1
      rwa [f64_of_representable hr] at this
    have hlt : ⌊f64 (x + 1 / 2)⌋ < ⌊x + 1 / 2⌋ + 1 :=
      Int.floor_lt.2 (by push_cast; linarith)
    have : ⌊f64 (x + 1 / 2)⌋ = ⌊x + 1 / 2⌋ := by omega
    rw [this]

/-! ## The rate expression on the clamped range -/

theorem rate_fin (s : MeteorMgr M) (h0 : 0 ≤ s.ZHR) (hmax : s.ZHR ≤ 2147483647)
    (hk0 : 0 ≤ s.zhr_to_wsr) (hk1 : s.zhr_to_wsr ≤ 1) (d : ℚ) (hd0 : 0 ≤ d) (hd : d ≤ 500) :
    MeteorMgr.rate s (Dbl.fin d) = Dbl.fin (rateValue s.ZHR s.zhr_to_wsr d) ∧
      0 ≤ rateValue s.ZHR s.zhr_to_wsr d ∧ rateValue s.ZHR s.zhr_to_wsr d ≤ 1073741824 := by
  have hz0 : (0 : ℚ) ≤ (s.ZHR : ℚ) := by exact_mod_cast h0
  have hz1 : (s.ZHR : ℚ) ≤ 2147483647 := by exact_mod_cast hmax
  have hzi : Dbl.ofInt s.ZHR = Dbl.fin s.ZHR :=
    ofInt_eq_fin s.ZHR (by rw [abs_of_nonneg h0]; omega)
  -- (double)ZHR * zhr_to_wsr
  have p1 : (0 : ℚ) ≤ (s.ZHR : ℚ) * s.zhr_to_wsr := mul_nonneg hz0 hk0
  have p2 : (s.ZHR : ℚ) * s.zhr_to_wsr ≤ 2147483648 := by
    have : (s.ZHR : ℚ) * s.zhr_to_wsr ≤ (s.ZHR : ℚ) * 1 := mul_le_mul_of_nonneg_left hk1 hz0
    linarith
  obtain ⟨e1, l1, u1⟩ := ofRat_eq_fin_of_bounds ((s.ZHR : ℚ) * s.zhr_to_wsr) 0 2147483648
    (by norm_num) (by norm_num) (by simpa using p1) (by simpa using p2)
  simp only [Int.cast_zero, Int.cast_ofNat] at l1 u1
  -- ... * delta_time
  have q1 : (0 : ℚ) ≤ f64 ((s.ZHR : ℚ) * s.zhr_to_wsr) * d := mul_nonneg l1 hd0
  have q2 : f64 ((s.ZHR : ℚ) * s.zhr_to_wsr) * d ≤ 1073741824000 := by
    have : f64 ((s.ZHR : ℚ) * s.zhr_to_wsr) * d ≤ 2147483648 * 500 :=
      mul_le_mul u1 hd hd0 (by norm_num)
    linarith
  obtain ⟨e2, l2, u2⟩ := ofRat_eq_fin_of_bounds (f64 ((s.ZHR : ℚ) * s.zhr_to_wsr) * d) 0
    1073741824000 (by norm_num) (by norm_num) (by simpa using q1) (by simpa using q2)
  simp only [Int.cast_zero, Int.cast_ofNat] at l2 u2
  -- ... / 1000.0f
  have r1 : (0 : ℚ) ≤ f64 (f64 ((s.ZHR : ℚ) * s.zhr_to_wsr) * d) / 1000 :=
    div_nonneg l2 (by norm_num)
  have r2 : f64 (f64 ((s.ZHR : ℚ) * s.zhr_to_wsr) * d) / 1000 ≤ 1073741824 := by
    rw [div_le_iff₀ (by norm_num)]
    linarith
  obtain ⟨e3, l3, u3⟩ := ofRat_eq_fin_of_bounds
    (f64 (f64 ((s.ZHR : ℚ) * s.zhr_to_wsr) * d) / 1000) 0 1073741824
    (by norm_num) (by norm_num) (by simpa using r1) (by simpa using r2)
  simp only [Int.cast_zero, Int.cast_ofNat] at l3 u3
  refine ⟨?_, l3, u3⟩
  unfold MeteorMgr.rate rateValue
  rw [hzi]
  simp only [Dbl.mul, e1, e2, Dbl.div]
  rw [if_neg (by norm_num), e3]

theorem rateValue_mono (z : Int) (k : ℚ) (hz : 0 ≤ z) (hk : 0 ≤ k) {d₁ d₂ : ℚ} (h : d₁ ≤ d₂) :
    rateValue z k d₁ ≤ rateValue z k d₂ := by
  unfold rateValue
  have hz' : (0 : ℚ) ≤ (z : ℚ) := by exact_mod_cast hz
  have hp : 0 ≤ f64 ((z : ℚ) * k) := f64_nonneg (mul_nonneg hz' hk)
  exact f64_mono (div_le_div_of_nonneg_right (f64_mono (mul_le_mul_of_nonneg_left h hp))
    (by norm_num))

theorem representable_rateValue (z : Int) (k d : ℚ) :
    Representable 53 (-1074) (rateValue z k d) :=
  representable_f64 _

theorem mpf_eq_round (env : Env M) (s : MeteorMgr M) (h0 : 0 ≤ s.ZHR)
    (hmax : s.ZHR ≤ 2147483647) (hk0 : 0 ≤ s.zhr_to_wsr) (hk1 : s.zhr_to_wsr ≤ 1) (d : ℚ)
    (hd0 : 0 ≤ d) (hd : d ≤ 500) :
    MeteorMgr.mpf env s (Dbl.fin d) = max 1 (round (rateValue s.ZHR s.zhr_to_wsr d)) := by
  obtain ⟨er, l, u⟩ := rate_fin s h0 hmax hk0 hk1 d hd0 hd
  have hhalf : (0.5 : ℚ) = 1 / 2 := by norm_num
  obtain ⟨ea, la, ua⟩ := ofRat_eq_fin_of_bounds (rateValue s.ZHR s.zhr_to_wsr d + 1 / 2) 0
    1073741825 (by norm_num) (by norm_num) (by push_cast; linarith) (by push_cast; linarith)
  simp only [Int.cast_zero, Int.cast_ofNat] at la ua
  have hf0 : 0 ≤ ⌊f64 (rateValue s.ZHR s.zhr_to_wsr d + 1 / 2)⌋ := Int.floor_nonneg.2 la
  have hf1 : ⌊f64 (rateValue s.ZHR s.zhr_to_wsr d + 1 / 2)⌋ ≤ 1073741825 := by
    have := Int.floor_mono ua
    rwa [show ((1073741825 : ℚ)) = ((1073741825 : Int) : ℚ) by norm_num,
      Int.floor_intCast] at this
  have ht : toInt env.intOutOfRange
      (Dbl.add (MeteorMgr.rate s (Dbl.fin d)) (Dbl.fin 0.5)) =
      ⌊f64 (rateValue s.ZHR s.zhr_to_wsr d + 1 / 2)⌋ := by
    rw [er, hhalf]
    simp only [Dbl.add, ea, toInt, if_pos la]
    exact if_pos ⟨by omega, by omega⟩
  unfold MeteorMgr.mpf
  simp only [ht]
  rw [← max_one_floor_f64_add_half (representable_rateValue _ _ _) l (by linarith)]
  rcases lt_or_le ⌊f64 (rateValue s.ZHR s.zhr_to_wsr d + 1 / 2)⌋ 1 with hlt | hge
  · rw [if_pos hlt, max_eq_left hlt.le]
  · rw [if_neg (not_lt.2 hge), max_eq_right hge]

theorem round_mono_rat {x y : ℚ} (h : x ≤ y) : round x ≤ round y := by
  rw [round_eq, round_eq]
  exact Int.floor_mono (by linarith)

theorem clampDelta_pos_cases {x : Dbl} (h : Dbl.lt (Dbl.fin 0) (MeteorMgr.clampDelta x) = true) :
    ∃ c, MeteorMgr.clampDelta x = Dbl.fin c ∧ 0 < c ∧ c ≤ 500 := by
  unfold MeteorMgr.clampDelta at h ⊢
  by_cases hc : Dbl.lt (Dbl.fin 500) x = true
  · rw [if_pos hc]
    exact ⟨500, rfl, by norm_num, le_refl _⟩
  · rw [if_neg hc] at h ⊢
    cases x with
    | nan => simp [Dbl.lt] at h
    | ninf => simp [Dbl.lt] at h
    | pinf => simp [Dbl.lt] at hc
    | fin q =>
      simp only [Dbl.lt, decide_eq_true_eq] at h hc
      exact ⟨q, rfl, h, not_lt.1 hc⟩

theorem clampDelta_of_nonneg {d : Dbl} (h : Dbl.le (Dbl.fin 0) d = true) :
    ∃ c, MeteorMgr.clampDelta (Dbl.mul d (Dbl.fin 1000)) = Dbl.fin c ∧ 0 ≤ c ∧ c ≤ 500 ∧
      (∀ q, Dbl.mul d (Dbl.fin 1000) = Dbl.fin q → c = min q 500) ∧
      (Dbl.mul d (Dbl.fin 1000) = Dbl.pinf → c = 500) := by
  have key : ∀ x : Dbl, Dbl.lt x (Dbl.fin 0) = false → x ≠ Dbl.nan →
      ∃ c, MeteorMgr.clampDelta x = Dbl.fin c ∧ 0 ≤ c ∧ c ≤ 500 ∧
        (∀ q, x = Dbl.fin q → c = min q 500) ∧ (x = Dbl.pinf → c = 500) := by
    intro x hx hn
    unfold MeteorMgr.clampDelta
    rcases notNeg_cases hx with rfl | rfl | ⟨q, rfl, hq⟩
    · exact absurd rfl hn
    · exact ⟨500, by simp [Dbl.lt], by norm_num, le_refl _, by simp, by simp⟩
    · by_cases hc : (500 : ℚ) < q
      · refine ⟨500, by simp [Dbl.lt, hc], by norm_num, le_refl _, ?_, by simp⟩
        intro q' hq'
        cases hq'
        rw [min_eq_right hc.le]
      · refine ⟨q, by simp [Dbl.lt, hc], hq, not_lt.1 hc, ?_, by simp⟩
        intro q' hq'
        cases hq'
        rw [min_eq_left (not_lt.1 hc)]
  cases d with
  | nan => simp [Dbl.le] at h
  | ninf => simp [Dbl.le] at h
  | pinf => exact key _ (by simp [Dbl.mul, Dbl.lt]) (by simp [Dbl.mul])
  | fin q =>
    simp only [Dbl.le, decide_eq_true_eq] at h
    exact key _ (by simp only [Dbl.mul]; exact notNeg_ofRat (by linarith))
      (by simp only [Dbl.mul]; exact ofRat_ne_nan _)

/-! ## Values of particular roundings -/

theorem f32_1_6667 : f32 1.6667 = 13981293 / 8388608 := by
  have := roundNE_eq_of_near 24 (-149) 1.6667 0 (-23) 13981293
    (by norm_num [abs_of_pos]) (by norm_num [abs_of_pos]) (by norm_num)
    (by norm_num [abs_lt])
  unfold f32
  rw [this]
  norm_num

theorem f32_3600 : f32 3600 = 3600 := by
  have := roundNE_of_representable 24 (-149)
    (representable_intCast 24 (-149) (by norm_num) 3600 (by norm_num))
  unfold f32
  simpa using this

/-- The value of the `float` expression `1.6667f/3600.f`. -/
theorem zhr_to_wsr_value : f32 (f32 1.6667 / f32 3600) = 3976901 / 8589934592 := by
  rw [f32_1_6667, f32_3600]
  have := roundNE_eq_of_near 24 (-149) (13981293 / 8388608 / 3600) (-12) (-35) 15907604
    (by norm_num [abs_of_pos]) (by norm_num [abs_of_pos]) (by norm_num)
    (by norm_num [abs_lt])
  unfold f32
  rw [this]
  norm_num

theorem ctor_zhr_to_wsr (zhr maxv : Int) :
    (MeteorMgr.ctor zhr maxv : MeteorMgr M).zhr_to_wsr = 3976901 / 8589934592 :=
  zhr_to_wsr_value

/-- At the `double` nearest to 1/86400 the product with 86400 rounds to 1. -/
theorem tspeed_realTime : Dbl.mul (Dbl.fin secondInDays) (Dbl.fin 86400) = Dbl.fin 1 := by
  have h := roundNE_eq_of_near 53 (-1074) (secondInDays * 86400) (-1) (-53)
    9007199254740992
    (by norm_num [secondInDays, abs_of_pos]) (by norm_num [secondInDays, abs_of_pos])
    (by norm_num) (by norm_num [secondInDays, abs_lt])
  have hv : f64 (secondInDays * 86400) = 1 := by
    unfold f64
    rw [h]
    norm_num
  simp only [Dbl.mul]
  rw [ofRat_eq_fin _ (by rw [hv]; norm_num) (by rw [hv]; norm_num), hv]

theorem tspeed_fast : Dbl.mul (Dbl.fin 1) (Dbl.fin 86400) = Dbl.fin 86400 := by
  simp only [Dbl.mul, one_mul]
  have := ofInt_eq_fin 86400 (by norm_num)
  simpa [Dbl.ofInt] using this

theorem gate_open_realTime :
    ¬ (Dbl.le (Dbl.mul realTimeEnv.getTimeSpeed (Dbl.fin 86400)) (Dbl.fin 0) = true ∨
      Dbl.lt (Dbl.fin 1) (Dbl.abs (Dbl.mul realTimeEnv.getTimeSpeed (Dbl.fin 86400))) = true) := by
  have : realTimeEnv.getTimeSpeed = Dbl.fin secondInDays := rfl
  rw [this, tspeed_realTime]
  simp [Dbl.le, Dbl.lt, Dbl.abs]

theorem gate_closed_fast :
    Dbl.le (Dbl.mul fastEnv.getTimeSpeed (Dbl.fin 86400)) (Dbl.fin 0) = true ∨
      Dbl.lt (Dbl.fin 1) (Dbl.abs (Dbl.mul fastEnv.getTimeSpeed (Dbl.fin 86400))) = true := by
  have : fastEnv.getTimeSpeed = Dbl.fin 1 := rfl
  rw [this, tspeed_fast]
  right
  simp [Dbl.lt, Dbl.abs]

/-- The `double` product of the `double` 0.1 and 1000 is 100. -/
theorem tenth_mul_thousand : Dbl.mul (Dbl.fin tenth) (Dbl.fin 1000) = Dbl.fin 100 := by
  have h := roundNE_eq_of_near 53 (-1074) (tenth * 1000) 6 (-46) 7036874417766400
    (by norm_num [tenth, abs_of_pos]) (by norm_num [tenth, abs_of_pos])
    (by norm_num) (by norm_num [tenth, abs_lt])
  have hv : f64 (tenth * 1000) = 100 := by
    unfold f64
    rw [h]
    norm_num
  simp only [Dbl.mul]
  rw [ofRat_eq_fin _ (by rw [hv]; norm_num) (by rw [hv]; norm_num), hv]

/-! ## Counting the samples that launch -/

theorem countP_range_le (p : Nat → Bool) (K : Nat) :
    ∀ n : Nat, (∀ r, r < n → p r = true → r < K) → (List.range n).countP p ≤ K := by
  intro n
  induction n with
  | zero => intro _; simp
  | succ n ih =>
    intro h
    rw [List.range_succ, List.countP_append]
    have h1 := ih (fun r hr hp => h r (Nat.lt_succ_of_lt hr) hp)
    by_cases hp : p n = true
    · have hn : n < K := h n (Nat.lt_succ_self n) hp
      have hlen : (List.range n).countP p ≤ n := by
        simpa using (List.countP_le_length (p := p) (l := List.range n))
      simp only [List.countP_cons, List.countP_nil, hp, if_true]
      omega
    · simp only [List.countP_cons, List.countP_nil, hp]
      simpa using h1

theorem le_countP_range (p : Nat → Bool) (K n : Nat) (hK : K ≤ n)
    (h : ∀ r, r < K → p r = true) : K ≤ (List.range n).countP p := by
  have h1 : (List.range K).countP p = (List.range K).length :=
    List.countP_eq_length.2 (fun a ha => h a (List.mem_range.1 ha))
  have h2 := List.Sublist.countP_le (p := p) (List.range_sublist.2 hK)
  rw [h1, List.length_range] at h2
  exact h2

theorem probOf_eq (R r : Nat) (hR : R ≤ 2147483647) (hr : r ≤ R) :
    MeteorMgr.probOf R r = Dbl.fin (f64 ((r : ℚ) / ((R : ℚ) + 1))) := by
  unfold MeteorMgr.probOf
  have e1 : Dbl.ofInt (r : Int) = Dbl.fin r := by
    have := ofInt_eq_fin (r : Int) (by rw [abs_of_nonneg (by omega)]; omega)
    simpa using this
  have e2 : Dbl.ofInt (R : Int) = Dbl.fin R := by
    have := ofInt_eq_fin (R : Int) (by rw [abs_of_nonneg (by omega)]; omega)
    simpa using this
  have e3 : Dbl.ofRat ((R : ℚ) + 1) = Dbl.fin ((R : ℚ) + 1) := by
    have := ofInt_eq_fin ((R : Int) + 1) (by rw [abs_of_nonneg (by omega)]; omega)
    simpa [Dbl.ofInt] using this
  have hpos : (0 : ℚ) < (R : ℚ) + 1 := by positivity
  have hq0 : (0 : ℚ) ≤ (r : ℚ) / ((R : ℚ) + 1) := by positivity
  have hq1 : (r : ℚ) / ((R : ℚ) + 1) ≤ 1 := by
    rw [div_le_one hpos]
    have : (r : ℚ) ≤ (R : ℚ) := by exact_mod_cast hr
    linarith
  obtain ⟨e4, _, _⟩ := ofRat_eq_fin_of_bounds ((r : ℚ) / ((R : ℚ) + 1)) 0 1 (by norm_num)
    (by norm_num) (by simpa using hq0) (by simpa using hq1)
  rw [e1, e2]
  simp only [Dbl.add, e3, Dbl.div]
  rw [if_neg (ne_of_gt hpos), e4]

/-- The number of samples below a `double` threshold `t` in `(0, 1)`, whose predecessor
among the `double`s is `t - u`. -/
theorem launchCount_bounds (R : Nat) (hR : R ≤ 2147483647) (s : MeteorMgr M) (dt : Dbl)
    (mpf : Int) (t u : ℚ) (hz : s.ZHR > 0) (ht : MeteorMgr.threshold s dt mpf = Dbl.fin t)
    (hrep : Representable 53 (-1074) t) (hrep' : Representable 53 (-1074) (t - u))
    (hu : 0 < u) (htu : 0 ≤ t - u) (ht1 : t < 1) :
    (t - u) * ((R : ℚ) + 1) < (MeteorMgr.launchCount R s dt mpf : ℚ) ∧
      (MeteorMgr.launchCount R s dt mpf : ℚ) ≤ t * ((R : ℚ) + 1) + 1 := by
  have hpos : (0 : ℚ) < (R : ℚ) + 1 := by positivity
  have hpass : ∀ r, r < R + 1 →
      (decide (s.ZHR > 0 ∧ Dbl.lt (MeteorMgr.probOf R r) (MeteorMgr.threshold s dt mpf) = true)
        = true ↔ f64 ((r : ℚ) / ((R : ℚ) + 1)) < t) := by
    intro r hr
    rw [ht, probOf_eq R r hR (by omega)]
    simp [Dbl.lt, hz]
  unfold MeteorMgr.launchCount
  constructor
  · -- every r up to floor ((t - u) (R + 1)) launches
    have hc0 : 0 ≤ (t - u) * ((R : ℚ) + 1) := mul_nonneg htu hpos.le
    have hK : ⌊(t - u) * ((R : ℚ) + 1)⌋₊ + 1 ≤ R + 1 := by
      have : (t - u) * ((R : ℚ) + 1) < ((R + 1 : Nat) : ℚ) := by
        push_cast
        nlinarith
      have := (Nat.floor_lt hc0).2 this
      omega
    have hlow := le_countP_range
      (fun r => decide (s.ZHR > 0 ∧
        Dbl.lt (MeteorMgr.probOf R r) (MeteorMgr.threshold s dt mpf) = true))
      (⌊(t - u) * ((R : ℚ) + 1)⌋₊ + 1) (R + 1) hK (by
        intro r hr
        rw [hpass r (by omega)]
        have hr' : (r : ℚ) ≤ (t - u) * ((R : ℚ) + 1) :=
          (Nat.le_floor_iff hc0).1 (by omega)
        have hq : (r : ℚ) / ((R : ℚ) + 1) ≤ t - u := (div_le_iff₀ hpos).2 hr'
        have := f64_mono hq
        rw [f64_of_representable hrep'] at this
        linarith)
    have hfl := Nat.lt_floor_add_one ((t - u) * ((R : ℚ) + 1))
    have : ((⌊(t - u) * ((R : ℚ) + 1)⌋₊ + 1 : Nat) : ℚ) ≤
        (((List.range (R + 1)).countP fun r => decide (s.ZHR > 0 ∧
          Dbl.lt (MeteorMgr.probOf R r) (MeteorMgr.threshold s dt mpf) = true) : Nat) : ℚ) := by
      exact_mod_cast hlow
    push_cast at this
    linarith
  · -- a launching r is below t (R + 1)
    have hc0 : 0 ≤ t * ((R : ℚ) + 1) := mul_nonneg (by linarith) hpos.le
    have hup := countP_range_le
      (fun r => decide (s.ZHR > 0 ∧
        Dbl.lt (MeteorMgr.probOf R r) (MeteorMgr.threshold s dt mpf) = true))
      (⌊t * ((R : ℚ) + 1)⌋₊ + 1) (R + 1) (by
        intro r hr hp
        have hlt := (hpass r hr).1 hp
        have hq : (r : ℚ) / ((R : ℚ) + 1) < t := by
          by_contra hc
          have := f64_mono (not_lt.1 hc)
          rw [f64_of_representable hrep] at this
          linarith
        have hr' : (r : ℚ) < t * ((R : ℚ) + 1) := (div_lt_iff₀ hpos).1 hq
        have : r ≤ ⌊t * ((R : ℚ) + 1)⌋₊ := Nat.le_floor hr'.le
        omega)
    have hfl := Nat.floor_le hc0
    have : (((List.range (R + 1)).countP fun r => decide (s.ZHR > 0 ∧
          Dbl.lt (MeteorMgr.probOf R r) (MeteorMgr.threshold s dt mpf) = true) : Nat) : ℚ) ≤
        ((⌊t * ((R : ℚ) + 1)⌋₊ + 1 : Nat) : ℚ) := by
      exact_mod_cast hup
    push_cast at this
    linarith

/-! ## The scenario `ZHR = 10`, `update(0.1)` at real speed -/

theorem representable_of_eq (q : ℚ) (n e : Int) (hn : |n| < 2 ^ 53) (he : -1074 ≤ e)
    (h : q = (n : ℚ) * (2 : ℚ) ^ e) : Representable 53 (-1074) q :=
  ⟨n, e, hn, he, h⟩

theorem scenario_rateValue : rateValue 10 (3976901 / 8589934592) 100 = 3976901 / 8589934592 := by
  unfold rateValue
  have e1 : f64 (((10 : Int) : ℚ) * (3976901 / 8589934592)) = 39769010 / 8589934592 := by
    rw [f64_of_representable (representable_of_eq _ 39769010 (-33) (by norm_num) (by norm_num)
      (by norm_num))]
    norm_num
  have e2 : f64 (39769010 / 8589934592 * 100) = 3976901000 / 8589934592 := by
    rw [f64_of_representable (representable_of_eq _ 3976901000 (-33) (by norm_num)
      (by norm_num) (by norm_num))]
    norm_num
  have e3 : f64 (3976901000 / 8589934592 / 1000) = 3976901 / 8589934592 := by
    rw [f64_of_representable (representable_of_eq _ 3976901 (-33) (by norm_num)
      (by norm_num) (by norm_num))]
    norm_num
  rw [e1, e2, e3]

theorem scenario_spawnDelta : MeteorMgr.spawnDelta (Dbl.fin tenth) = Dbl.fin 100 := by
  unfold MeteorMgr.spawnDelta MeteorMgr.clampDelta
  rw [tenth_mul_thousand]
  norm_num [Dbl.lt]

theorem scenario_mpf (env : Env M) (s : MeteorMgr M) (hz : s.ZHR = 10)
    (hk : s.zhr_to_wsr = 3976901 / 8589934592) :
    MeteorMgr.meteorsPerFrame env s (Dbl.fin tenth) = 1 := by
  unfold MeteorMgr.meteorsPerFrame
  rw [scenario_spawnDelta, mpf_eq_round env s (by omega) (by omega) (by rw [hk]; norm_num)
    (by rw [hk]; norm_num) 100 (by norm_num) (by norm_num), hz, hk, scenario_rateValue]
  have : round ((3976901 : ℚ) / 8589934592) = 0 := by
    rw [round_eq, Int.floor_eq_iff]
    norm_num
  rw [this]
  rfl

theorem scenario_threshold (s : MeteorMgr M) (hz : s.ZHR = 10)
    (hk : s.zhr_to_wsr = 3976901 / 8589934592) :
    MeteorMgr.threshold s (Dbl.fin 100) 1 = Dbl.fin (3976901 / 8589934592) := by
  obtain ⟨er, _, _⟩ := rate_fin s (by omega) (by omega) (by rw [hk]; norm_num)
    (by rw [hk]; norm_num) 100 (by norm_num) (by norm_num)
  unfold MeteorMgr.threshold
  rw [er, hz, hk, scenario_rateValue, ofInt_eq_fin 1 (by norm_num)]
  simp only [Dbl.div, Int.cast_one, div_one]
  rw [if_neg (by norm_num)]
  have hv : f64 (3976901 / 8589934592) = 3976901 / 8589934592 :=
    f64_of_representable (representable_of_eq _ 3976901 (-33) (by norm_num) (by norm_num)
      (by norm_num))
  rw [ofRat_eq_fin _ (by rw [hv]; norm_num) (by rw [hv]; norm_num), hv]

theorem scenario_trialProbability (env : Env M) (s : MeteorMgr M) (hz : s.ZHR = 10)
    (hk : s.zhr_to_wsr = 3976901 / 8589934592) (hR : env.RAND_MAX ≤ 2147483647) :
    (3976901 / 8589934592 - 1 / 18446744073709551616 : ℚ) <
        MeteorMgr.trialProbability env s (Dbl.fin 100) 1 ∧
      MeteorMgr.trialProbability env s (Dbl.fin 100) 1 ≤
        3976901 / 8589934592 + 1 / ((env.RAND_MAX : ℚ) + 1) := by
  have hpos : (0 : ℚ) < (env.RAND_MAX : ℚ) + 1 := by positivity
  obtain ⟨lo, hi⟩ := launchCount_bounds env.RAND_MAX hR s (Dbl.fin 100) 1
    (3976901 / 8589934592) (1 / 18446744073709551616) (show s.ZHR > 0 by omega)
    (scenario_threshold s hz hk)
    (representable_of_eq _ 3976901 (-33) (by norm_num) (by norm_num) (by norm_num))
    (representable_of_eq _ 8540329867214847 (-64) (by norm_num) (by norm_num) (by norm_num))
    (by norm_num) (by norm_num) (by norm_num)
  unfold MeteorMgr.trialProbability
  constructor
  · rw [lt_div_iff₀ hpos]
    exact lo
  · rw [div_le_iff₀ hpos, add_mul, one_div, inv_mul_cancel₀ (ne_of_gt hpos)]
    exact hi

theorem expectedSpawns_of_scenario (env : Env M) (s : MeteorMgr M) (hz : s.ZHR = 10)
    (hk : s.zhr_to_wsr = 3976901 / 8589934592)
    (hg : ¬ (Dbl.le (Dbl.mul env.getTimeSpeed (Dbl.fin 86400)) (Dbl.fin 0) = true ∨
      Dbl.lt (Dbl.fin 1) (Dbl.abs (Dbl.mul env.getTimeSpeed (Dbl.fin 86400))) = true)) :
    MeteorMgr.expectedSpawns env s (Dbl.fin tenth) =
      MeteorMgr.trialProbability env s (Dbl.fin 100) 1 := by
  unfold MeteorMgr.expectedSpawns
  rw [if_neg hg, scenario_mpf env s hz hk, scenario_spawnDelta]
  simp

theorem expectedTotal_of_scenario (env : Env M)
    (hg : ¬ (Dbl.le (Dbl.mul env.getTimeSpeed (Dbl.fin 86400)) (Dbl.fin 0) = true ∨
      Dbl.lt (Dbl.fin 1) (Dbl.abs (Dbl.mul env.getTimeSpeed (Dbl.fin 86400))) = true))
    (n : Nat) :
    ∀ s : MeteorMgr M, s.ZHR = 10 → s.zhr_to_wsr = 3976901 / 8589934592 →
      MeteorMgr.expectedTotal env (Dbl.fin tenth) n s =
        some ((n : ℚ) * MeteorMgr.trialProbability env s (Dbl.fin 100) 1) := by
  induction n with
  | zero =>
    intro s _ _
    simp [MeteorMgr.expectedTotal]
  | succ n ih =>
    intro s hz hk
    obtain ⟨active, tr, hu⟩ := update_some env s (Dbl.fin tenth)
    simp only [MeteorMgr.expectedTotal, hu]
    rw [ih { s with active := active } hz hk, expectedSpawns_of_scenario env s hz hk hg]
    simp only [Option.map_some']
    congr 1
    have : MeteorMgr.trialProbability env { s with active := active } (Dbl.fin 100) 1 =
        MeteorMgr.trialProbability env s (Dbl.fin 100) 1 := rfl
    rw [this]
    push_cast
    ring

/-! ## Values of the demonstration data -/

theorem demoMgr_zhr_to_wsr : demoMgr.zhr_to_wsr = 3976901 / 8589934592 :=
  zhr_to_wsr_value

theorem demoMgr_zhr_to_wsr_nonneg : 0 ≤ demoMgr.zhr_to_wsr := by
  rw [demoMgr_zhr_to_wsr]
  norm_num

theorem demoMgr_zhr_to_wsr_le_one : demoMgr.zhr_to_wsr ≤ 1 := by
  rw [demoMgr_zhr_to_wsr]
  norm_num

theorem mpf_eq_max (env : Env M) (s : MeteorMgr M) (dt : Dbl) :
    MeteorMgr.mpf env s dt =
      max 1 (toInt env.intOutOfRange (Dbl.add (MeteorMgr.rate s dt) (Dbl.fin 0.5))) := by
  unfold MeteorMgr.mpf
  simp only
  rcases lt_or_le (toInt env.intOutOfRange (Dbl.add (MeteorMgr.rate s dt) (Dbl.fin 0.5))) 1
    with hlt | hge
  · rw [if_pos hlt, max_eq_left hlt.le]
  · rw [if_neg (not_lt.2 hge), max_eq_right hge]

/-! ## The claims -/

/-- C1: after `update(delta)` the live collection holds the states of exactly the meteors
whose `Meteor::update` returned true during the call, in their order, followed only by
meteors created during the call; the meteors deleted are exactly those whose
`Meteor::update` returned false. -/
theorem update_keeps_exactly_alive (env : Env M) (s : MeteorMgr M) (delta : Dbl) :
    ∃ s' tr spawned, MeteorMgr.update env s delta = some (s', tr) ∧
      s'.active = survivors env (Dbl.mul delta (Dbl.fin 1000)) s.active ++ spawned ∧
      (∀ m ∈ spawned, ∃ i, m = env.newMeteor i s.max_velocity) ∧
      tr.filterMap Event.deleted = expired env (Dbl.mul delta (Dbl.fin 1000)) s.active := by
  by_cases h : Dbl.le (Dbl.mul env.getTimeSpeed (Dbl.fin 86400)) (Dbl.fin 0) = true ∨
      Dbl.lt (Dbl.fin 1) (Dbl.abs (Dbl.mul env.getTimeSpeed (Dbl.fin 86400))) = true
  · refine ⟨_, _, [], update_gate_closed env s delta h, ?_, ?_, ?_⟩
    · simp
    · simp
    · exact advanceTrace_deleted env _ _
  · refine ⟨_, _, _, update_gate_open env s delta h, rfl, ?_, ?_⟩
    · intro m hm
      obtain ⟨i, _, hi⟩ := List.mem_map.1 hm
      exact ⟨i, hi.symm⟩
    · rw [List.filterMap_append, advanceTrace_deleted, spawnTrace_deleted, List.append_nil]

/-- C2: `update(delta)` calls `Meteor::update` exactly once on each meteor live at entry,
in order, with the argument `delta * 1000` (the `double` product); when that exceeds 500
no call receives the clamped value 500. -/
theorem update_advances_each_once (env : Env M) (s : MeteorMgr M) (delta : Dbl) :
    ∃ s' tr, MeteorMgr.update env s delta = some (s', tr) ∧
      tr.filterMap Event.updateCall = s.active.map (fun m => (m, (Dbl.mul delta (Dbl.fin 1000)))) ∧
      (Dbl.lt (Dbl.fin 500) (Dbl.mul delta (Dbl.fin 1000)) = true →
        ∀ m, Event.meteorUpdate m (Dbl.fin 500) ∉ tr) := by
  have key : ∃ s' tr, MeteorMgr.update env s delta = some (s', tr) ∧
      tr.filterMap Event.updateCall = s.active.map (fun m => (m, (Dbl.mul delta (Dbl.fin 1000)))) := by
    by_cases h : Dbl.le (Dbl.mul env.getTimeSpeed (Dbl.fin 86400)) (Dbl.fin 0) = true ∨
      Dbl.lt (Dbl.fin 1) (Dbl.abs (Dbl.mul env.getTimeSpeed (Dbl.fin 86400))) = true
    · exact ⟨_, _, update_gate_closed env s delta h, advanceTrace_updateCall env _ _⟩
    · refine ⟨_, _, update_gate_open env s delta h, ?_⟩
      rw [List.filterMap_append, advanceTrace_updateCall, spawnTrace_updateCall,
        List.append_nil]
  obtain ⟨s', tr, hu, hc⟩ := key
  refine ⟨s', tr, hu, hc, ?_⟩
  intro hgt m hm
  have hmem : (m, Dbl.fin 500) ∈ tr.filterMap Event.updateCall :=
    List.mem_filterMap.2 ⟨_, hm, rfl⟩
  rw [hc] at hmem
  obtain ⟨m', _, hm'⟩ := List.mem_map.1 hmem
  have h500 : (Dbl.mul delta (Dbl.fin 1000)) = Dbl.fin 500 := congrArg Prod.snd hm'
  rw [h500] at hgt
  simp [Dbl.lt] at hgt

/-- C3: when the `double` that line 115 computes, `tspeed = getTimeSpeed() * 86400`,
satisfies `tspeed <= 0` or `fabs(tspeed) > 1`, `update` makes no trial and creates no
meteor: the manager afterwards differs from the one before only in that `active` holds
exactly the survivors of the advance step. -/
theorem update_gate_closed_spawns_nothing (env : Env M) (s : MeteorMgr M) (delta : Dbl)
    (h : Dbl.le (Dbl.mul env.getTimeSpeed (Dbl.fin 86400)) (Dbl.fin 0) = true ∨
      Dbl.lt (Dbl.fin 1) (Dbl.abs (Dbl.mul env.getTimeSpeed (Dbl.fin 86400))) = true) :
    ∃ tr, MeteorMgr.update env s delta =
        some ({ s with active := survivors env (Dbl.mul delta (Dbl.fin 1000)) s.active }, tr) ∧
      tr.filterMap Event.created = [] ∧ tr.filterMap Event.trial = [] :=
  ⟨_, update_gate_closed env s delta h, advanceTrace_created env _ _,
    advanceTrace_trial env _ _⟩

/-- Witness of C3: at one sky day per second, `tspeed` is 86400 and nothing is spawned. -/
theorem update_gate_closed_spawns_nothing_witness :
    (Dbl.le (Dbl.mul fastEnv.getTimeSpeed (Dbl.fin 86400)) (Dbl.fin 0) = true ∨
      Dbl.lt (Dbl.fin 1) (Dbl.abs (Dbl.mul fastEnv.getTimeSpeed (Dbl.fin 86400))) = true) ∧
    ∃ tr, MeteorMgr.update fastEnv demoMgr (Dbl.fin tenth) =
        some ({ demoMgr with
          active := survivors fastEnv (Dbl.mul (Dbl.fin tenth) (Dbl.fin 1000)) demoMgr.active }, tr) ∧
      tr.filterMap Event.created = [] ∧ tr.filterMap Event.trial = [] :=
  ⟨gate_closed_fast,
    update_gate_closed_spawns_nothing fastEnv demoMgr (Dbl.fin tenth) gate_closed_fast⟩

/-- C4: past the speed gate, with `dt` the `double` `delta * 1000` clamped to at most 500,
`x` the `double` value of `ZHR * zhr_to_wsr * dt / 1000` and `n` the truncation of
`x + 0.5` raised to at least 1, `update` makes exactly `n` trials, numbered `0 .. n - 1`;
trial `i`, whose sample is `rand() / (RAND_MAX + 1)`, creates one meteor exactly when
`ZHR > 0` and the sample is below `x / n`; the meteors created are built with
`max_velocity` and appended, in trial order, after the survivors, so their number is the
number of such trials. -/
theorem update_trials (env : Env M) (s : MeteorMgr M) (delta : Dbl)
    (h : ¬ (Dbl.le (Dbl.mul env.getTimeSpeed (Dbl.fin 86400)) (Dbl.fin 0) = true ∨
      Dbl.lt (Dbl.fin 1) (Dbl.abs (Dbl.mul env.getTimeSpeed (Dbl.fin 86400))) = true)) :
    let dt := if Dbl.lt (Dbl.fin 500) (Dbl.mul delta (Dbl.fin 1000)) = true then Dbl.fin 500 else (Dbl.mul delta (Dbl.fin 1000))
    let x := Dbl.div (Dbl.mul (Dbl.mul (Dbl.ofInt s.ZHR) (Dbl.fin s.zhr_to_wsr)) dt)
      (Dbl.fin 1000)
    let m := toInt env.intOutOfRange (Dbl.add x (Dbl.fin 0.5))
    let n := if m < 1 then 1 else m
    let pass := fun i : Nat => decide (s.ZHR > 0 ∧
      Dbl.lt (Dbl.div (Dbl.ofInt (env.rand i)) (Dbl.add (Dbl.ofInt env.RAND_MAX) (Dbl.fin 1)))
        (Dbl.div x (Dbl.ofInt n)) = true)
    ∃ s' tr, MeteorMgr.update env s delta = some (s', tr) ∧
      tr.filterMap Event.trial = List.range n.toNat ∧
      s'.active = survivors env (Dbl.mul delta (Dbl.fin 1000)) s.active ++
        ((List.range n.toNat).filter pass).map (fun i => env.newMeteor i s.max_velocity) ∧
      tr.filterMap Event.created =
        ((List.range n.toNat).filter pass).map (fun i => (i, s.max_velocity)) ∧
      s'.active.length = (survivors env (Dbl.mul delta (Dbl.fin 1000)) s.active).length +
        (List.range n.toNat).countP pass := by
  intro dt x m n pass
  refine ⟨_, _, update_gate_open env s delta h, ?_, ?_, ?_, ?_⟩
  · rw [List.filterMap_append, advanceTrace_trial, spawnTrace_trial, List.nil_append,
      List.range_eq_range']
    rfl
  · simp only [List.range_eq_range']
    rfl
  · rw [List.filterMap_append, advanceTrace_created, spawnTrace_created, List.nil_append,
      List.range_eq_range']
    rfl
  · simp only [List.length_append, List.length_map, List.countP_eq_length_filter,
      List.range_eq_range']
    rfl

/-- Witness of C4: at real speed, `MeteorMgr(10, 70)` and `update(0.1)`. -/
theorem update_trials_witness :
    ¬ (Dbl.le (Dbl.mul realTimeEnv.getTimeSpeed (Dbl.fin 86400)) (Dbl.fin 0) = true ∨
      Dbl.lt (Dbl.fin 1) (Dbl.abs (Dbl.mul realTimeEnv.getTimeSpeed (Dbl.fin 86400))) = true) ∧
    (let dt := if Dbl.lt (Dbl.fin 500) (Dbl.mul (Dbl.fin tenth) (Dbl.fin 1000)) = true then Dbl.fin 500
      else (Dbl.mul (Dbl.fin tenth) (Dbl.fin 1000))
    let x := Dbl.div (Dbl.mul (Dbl.mul (Dbl.ofInt demoMgr.ZHR) (Dbl.fin demoMgr.zhr_to_wsr)) dt)
      (Dbl.fin 1000)
    let m := toInt realTimeEnv.intOutOfRange (Dbl.add x (Dbl.fin 0.5))
    let n := if m < 1 then 1 else m
    let pass := fun i : Nat => decide (demoMgr.ZHR > 0 ∧
      Dbl.lt (Dbl.div (Dbl.ofInt (realTimeEnv.rand i))
        (Dbl.add (Dbl.ofInt realTimeEnv.RAND_MAX) (Dbl.fin 1)))
        (Dbl.div x (Dbl.ofInt n)) = true)
    ∃ s' tr, MeteorMgr.update realTimeEnv demoMgr (Dbl.fin tenth) = some (s', tr) ∧
      tr.filterMap Event.trial = List.range n.toNat ∧
      s'.active = survivors realTimeEnv (Dbl.mul (Dbl.fin tenth) (Dbl.fin 1000)) demoMgr.active ++
        ((List.range n.toNat).filter pass).map
          (fun i => realTimeEnv.newMeteor i demoMgr.max_velocity) ∧
      tr.filterMap Event.created =
        ((List.range n.toNat).filter pass).map (fun i => (i, demoMgr.max_velocity)) ∧
      s'.active.length = (survivors realTimeEnv (Dbl.mul (Dbl.fin tenth) (Dbl.fin 1000)) demoMgr.active).length +
        (List.range n.toNat).countP pass) :=
  ⟨gate_open_realTime, update_trials realTimeEnv demoMgr (Dbl.fin tenth) gate_open_realTime⟩

/-- C5: the trial count `mpf` that `update` computes is at least 1 for every rate, every
delta and every outcome of the integer conversion, so the conversion `(double)mpf` used as
divisor on line 148 is never zero. -/
theorem meteorsPerFrame_pos (env : Env M) (s : MeteorMgr M) (delta : Dbl) :
    1 ≤ MeteorMgr.meteorsPerFrame env s delta ∧
      ((MeteorMgr.meteorsPerFrame env s delta : Int) : ℚ) ≠ 0 ∧
      1 ≤ (MeteorMgr.meteorsPerFrame env s delta).toNat ∧
      Dbl.ofInt (MeteorMgr.meteorsPerFrame env s delta) ≠ Dbl.fin 0 := by
  have h := mpf_pos env s (MeteorMgr.spawnDelta delta)
  refine ⟨h, ?_, ?_, ?_⟩
  · have : (0 : Int) < MeteorMgr.meteorsPerFrame env s delta := by
      unfold MeteorMgr.meteorsPerFrame; omega
    exact_mod_cast ne_of_gt this
  · unfold MeteorMgr.meteorsPerFrame; omega
  · intro hc
    have hp := pos_ofInt (n := MeteorMgr.meteorsPerFrame env s delta) h
    rw [hc] at hp
    simp [Dbl.lt] at hp

/-- C6: for two deltas that are both at least 0.5 s, `update` on the same manager with the
same samples computes the same `mpf` and the same per-trial threshold, makes the same
trials and creates the same meteors, appended after the respective survivors. -/
theorem update_clamped_deltas_agree (env : Env M) (s : MeteorMgr M) (d1 d2 : Dbl)
    (h1 : Dbl.le (Dbl.fin (1 / 2)) d1 = true) (h2 : Dbl.le (Dbl.fin (1 / 2)) d2 = true) :
    MeteorMgr.meteorsPerFrame env s d1 = MeteorMgr.meteorsPerFrame env s d2 ∧
    MeteorMgr.threshold s (MeteorMgr.spawnDelta d1) (MeteorMgr.meteorsPerFrame env s d1) =
      MeteorMgr.threshold s (MeteorMgr.spawnDelta d2) (MeteorMgr.meteorsPerFrame env s d2) ∧
    ∃ s1 t1 s2 t2 spawned,
      MeteorMgr.update env s d1 = some (s1, t1) ∧
      MeteorMgr.update env s d2 = some (s2, t2) ∧
      s1.active = survivors env (Dbl.mul d1 (Dbl.fin 1000)) s.active ++ spawned ∧
      s2.active = survivors env (Dbl.mul d2 (Dbl.fin 1000)) s.active ++ spawned ∧
      t1.filterMap Event.created = t2.filterMap Event.created ∧
      t1.filterMap Event.trial = t2.filterMap Event.trial := by
  have e1 : MeteorMgr.clampDelta (Dbl.mul d1 (Dbl.fin 1000)) = Dbl.fin 500 := clampDelta_of_half_le h1
  have e2 : MeteorMgr.clampDelta (Dbl.mul d2 (Dbl.fin 1000)) = Dbl.fin 500 := clampDelta_of_half_le h2
  refine ⟨?_, ?_, ?_⟩
  · simp only [MeteorMgr.meteorsPerFrame, MeteorMgr.spawnDelta, e1, e2]
  · simp only [MeteorMgr.meteorsPerFrame, MeteorMgr.spawnDelta, e1, e2]
  · by_cases h : Dbl.le (Dbl.mul env.getTimeSpeed (Dbl.fin 86400)) (Dbl.fin 0) = true ∨
      Dbl.lt (Dbl.fin 1) (Dbl.abs (Dbl.mul env.getTimeSpeed (Dbl.fin 86400))) = true
    · refine ⟨_, _, _, _, [], update_gate_closed env s d1 h, update_gate_closed env s d2 h,
        ?_, ?_, ?_, ?_⟩
      · simp
      · simp
      · rw [advanceTrace_created, advanceTrace_created]
      · rw [advanceTrace_trial, advanceTrace_trial]
    · refine ⟨_, _, _, _, _, update_gate_open env s d1 h, update_gate_open env s d2 h,
        rfl, ?_, ?_, ?_⟩
      · simp only [e1, e2]
      · simp only [List.filterMap_append, advanceTrace_created, e1, e2]
      · simp only [List.filterMap_append, advanceTrace_trial, e1, e2]

/-- Witness of C6: `update(10.0)` against `update(0.5)`. -/
theorem update_clamped_deltas_agree_witness :
    (Dbl.le (Dbl.fin (1 / 2)) (Dbl.fin 10) = true ∧
      Dbl.le (Dbl.fin (1 / 2)) (Dbl.fin (1 / 2)) = true) ∧
    (MeteorMgr.meteorsPerFrame realTimeEnv demoMgr (Dbl.fin 10) =
      MeteorMgr.meteorsPerFrame realTimeEnv demoMgr (Dbl.fin (1 / 2)) ∧
    MeteorMgr.threshold demoMgr (MeteorMgr.spawnDelta (Dbl.fin 10))
        (MeteorMgr.meteorsPerFrame realTimeEnv demoMgr (Dbl.fin 10)) =
      MeteorMgr.threshold demoMgr (MeteorMgr.spawnDelta (Dbl.fin (1 / 2)))
        (MeteorMgr.meteorsPerFrame realTimeEnv demoMgr (Dbl.fin (1 / 2))) ∧
    ∃ s1 t1 s2 t2 spawned,
      MeteorMgr.update realTimeEnv demoMgr (Dbl.fin 10) = some (s1, t1) ∧
      MeteorMgr.update realTimeEnv demoMgr (Dbl.fin (1 / 2)) = some (s2, t2) ∧
      s1.active = survivors realTimeEnv (Dbl.mul (Dbl.fin 10) (Dbl.fin 1000)) demoMgr.active ++ spawned ∧
      s2.active = survivors realTimeEnv (Dbl.mul (Dbl.fin (1 / 2)) (Dbl.fin 1000)) demoMgr.active ++ spawned ∧
      t1.filterMap Event.created = t2.filterMap Event.created ∧
      t1.filterMap Event.trial = t2.filterMap Event.trial) :=
  ⟨⟨by norm_num [Dbl.le], by norm_num [Dbl.le]⟩,
    update_clamped_deltas_agree realTimeEnv demoMgr (Dbl.fin 10) (Dbl.fin (1 / 2))
      (by norm_num [Dbl.le]) (by norm_num [Dbl.le])⟩

/-- C7: with `ZHR == 0`, whatever the delta, the time speed and the samples, `update`
creates no meteor: afterwards `active` holds exactly the survivors of the advance step and
nothing else of the manager has changed. -/
theorem update_rate_zero_spawns_nothing (env : Env M) (s : MeteorMgr M) (delta : Dbl)
    (h : s.ZHR = 0) :
    ∃ tr, MeteorMgr.update env s delta =
        some ({ s with active := survivors env (Dbl.mul delta (Dbl.fin 1000)) s.active }, tr) ∧
      tr.filterMap Event.created = [] := by
  by_cases hg : Dbl.le (Dbl.mul env.getTimeSpeed (Dbl.fin 86400)) (Dbl.fin 0) = true ∨
      Dbl.lt (Dbl.fin 1) (Dbl.abs (Dbl.mul env.getTimeSpeed (Dbl.fin 86400))) = true
  · exact ⟨_, update_gate_closed env s delta hg, advanceTrace_created env _ _⟩
  · have hl : ∀ n i, launched env s (MeteorMgr.clampDelta (Dbl.mul delta (Dbl.fin 1000)))
        (MeteorMgr.mpf env s (MeteorMgr.clampDelta (Dbl.mul delta (Dbl.fin 1000)))) n i = [] :=
      fun n i => launched_eq_nil env s _ _ n i
        (fun j => launches_false_of_rate_zero env s _ _ j (by omega))
    have hu := update_gate_open env s delta hg
    simp only [hl, List.map_nil, List.append_nil] at hu
    refine ⟨_, hu, ?_⟩
    rw [List.filterMap_append, advanceTrace_created, spawnTrace_created, hl]
    rfl

/-- Witness of C7: `MeteorMgr(0, 70)` at real speed with samples that are all 0. -/
theorem update_rate_zero_spawns_nothing_witness :
    (demoMgr.setZHR 0).ZHR = 0 ∧
    ∃ tr, MeteorMgr.update realTimeEnv (demoMgr.setZHR 0) (Dbl.fin tenth) =
        some ({ (demoMgr.setZHR 0) with
          active := survivors realTimeEnv (Dbl.mul (Dbl.fin tenth) (Dbl.fin 1000)) (demoMgr.setZHR 0).active },
            tr) ∧
      tr.filterMap Event.created = [] :=
  ⟨rfl, update_rate_zero_spawns_nothing realTimeEnv (demoMgr.setZHR 0) (Dbl.fin tenth) rfl⟩

/-- C8: for `delta <= 0` (and the non-negative `zhr_to_wsr` every constructed manager has),
whatever the rate, the time speed and the samples, `update` creates no meteor, and every
meteor whose `Meteor::update` returns false is deleted and removed: afterwards `active`
holds exactly the survivors. -/
theorem update_nonpositive_delta_spawns_nothing (env : Env M) (s : MeteorMgr M) (delta : Dbl)
    (hk : 0 ≤ s.zhr_to_wsr) (h : Dbl.le delta (Dbl.fin 0) = true) :
    ∃ tr, MeteorMgr.update env s delta =
        some ({ s with active := survivors env (Dbl.mul delta (Dbl.fin 1000)) s.active }, tr) ∧
      tr.filterMap Event.created = [] ∧
      tr.filterMap Event.deleted = expired env (Dbl.mul delta (Dbl.fin 1000)) s.active := by
  by_cases hg : Dbl.le (Dbl.mul env.getTimeSpeed (Dbl.fin 86400)) (Dbl.fin 0) = true ∨
      Dbl.lt (Dbl.fin 1) (Dbl.abs (Dbl.mul env.getTimeSpeed (Dbl.fin 86400))) = true
  · exact ⟨_, update_gate_closed env s delta hg, advanceTrace_created env _ _,
      advanceTrace_deleted env _ _⟩
  · have hd : Dbl.lt (Dbl.fin 0) (MeteorMgr.clampDelta (Dbl.mul delta (Dbl.fin 1000))) = false :=
      clampDelta_notPos (notPos_mul_thousand h)
    have hl : ∀ n i, launched env s (MeteorMgr.clampDelta (Dbl.mul delta (Dbl.fin 1000)))
        (MeteorMgr.mpf env s (MeteorMgr.clampDelta (Dbl.mul delta (Dbl.fin 1000)))) n i = [] :=
      fun n i => launched_eq_nil env s _ _ n i
        (fun j => launches_false_of_delta_notPos env s _ _ j hk hd (mpf_pos env s _))
    have hu := update_gate_open env s delta hg
    simp only [hl, List.map_nil, List.append_nil] at hu
    refine ⟨_, hu, ?_, ?_⟩
    · rw [List.filterMap_append, advanceTrace_created, spawnTrace_created, hl]
      rfl
    · rw [List.filterMap_append, advanceTrace_deleted, spawnTrace_deleted, List.append_nil]

/-- Witness of C8: `update(-1)` at real speed with samples that are all 0. -/
theorem update_nonpositive_delta_spawns_nothing_witness :
    (0 ≤ demoMgr.zhr_to_wsr ∧ Dbl.le (Dbl.fin (-1)) (Dbl.fin 0) = true) ∧
    ∃ tr, MeteorMgr.update realTimeEnv demoMgr (Dbl.fin (-1)) =
        some ({ demoMgr with
          active := survivors realTimeEnv (Dbl.mul (Dbl.fin (-1)) (Dbl.fin 1000)) demoMgr.active }, tr) ∧
      tr.filterMap Event.created = [] ∧
      tr.filterMap Event.deleted = expired realTimeEnv (Dbl.mul (Dbl.fin (-1)) (Dbl.fin 1000)) demoMgr.active :=
  ⟨⟨demoMgr_zhr_to_wsr_nonneg, by norm_num [Dbl.le]⟩,
    update_nonpositive_delta_spawns_nothing realTimeEnv demoMgr (Dbl.fin (-1))
      demoMgr_zhr_to_wsr_nonneg (by norm_num [Dbl.le])⟩

/-- C9, counterexample: `setZHR(-5)` stores -5, and `getZHR()` then returns a negative
value. -/
theorem setZHR_negative_is_stored :
    ((demoMgr.setZHR (-5)).getZHR = -5) ∧ ¬ (0 ≤ (demoMgr.setZHR (-5)).getZHR) := by
  constructor
  · rfl
  · decide

/-- C9, amended: after `setZHR(n)` the value returned by `getZHR()` is `n` itself, for
every integer `n`, so it is non-negative exactly when `n` is; the constructor stores its
rate argument unchanged in the same way. -/
theorem getZHR_setZHR (s : MeteorMgr M) (n v : Int) :
    (s.setZHR n).getZHR = n ∧ (0 ≤ (s.setZHR n).getZHR ↔ 0 ≤ n) ∧
      (MeteorMgr.ctor n v : MeteorMgr M).getZHR = n :=
  ⟨rfl, Iff.rfl, rfl⟩

/-- C10, the destructor on a collection of two meteors: the first is deleted, the second
is skipped and never deleted, and the vector is left holding it.  On a collection of one
meteor the iterator steps past `end()` after the erase and is dereferenced there. -/
theorem dtor_skips_second (z v : Int) (k : ℚ) (a b : M) :
    MeteorMgr.dtor { ZHR := z, max_velocity := v, zhr_to_wsr := k, active := [a, b] } =
      some ([b], [Event.deleteMeteor a]) ∧
    MeteorMgr.dtor { ZHR := z, max_velocity := v, zhr_to_wsr := k, active := [a] } = none := by
  constructor
  · unfold MeteorMgr.dtor
    rw [MeteorMgr.dtorLoop]
    simp
    rw [MeteorMgr.dtorLoop]
    simp
  · unfold MeteorMgr.dtor
    rw [MeteorMgr.dtorLoop]
    simp
    rw [MeteorMgr.dtorLoop]
    simp


/-- C11: when the atmosphere is on and the luminance is above 5, `draw` returns 0 without
calling any collaborator, so no meteor is drawn, and the manager is left as it was. -/
theorem draw_too_bright (denv : DrawEnv M) (s : MeteorMgr M)
    (h : denv.getFlagAtmosphere = true ∧ denv.getLuminance > 5) :
    MeteorMgr.draw denv s = (0, s, []) ∧
      (MeteorMgr.draw denv s).2.2.filterMap DrawEvent.drawCall = [] ∧
      (MeteorMgr.draw denv s).2.1.active = s.active := by
  have e : MeteorMgr.draw denv s = (0, s, []) := by
    unfold MeteorMgr.draw
    rw [if_pos h]
  rw [e]
  exact ⟨rfl, rfl, rfl⟩

/-- Witness of C11: a daylight scene. -/
theorem draw_too_bright_witness :
    (brightScene.getFlagAtmosphere = true ∧ brightScene.getLuminance > 5) ∧
    (MeteorMgr.draw brightScene demoMgr = (0, demoMgr, []) ∧
      (MeteorMgr.draw brightScene demoMgr).2.2.filterMap DrawEvent.drawCall = [] ∧
      (MeteorMgr.draw brightScene demoMgr).2.1.active = demoMgr.active) :=
  ⟨⟨rfl, by norm_num [brightScene]⟩,
    draw_too_bright brightScene demoMgr ⟨rfl, by norm_num [brightScene]⟩⟩

/-- C12: when the scene is not too bright, `draw` returns 0, calls `Meteor::draw` exactly
once on each meteor of `active` in vector order, and leaves the vector with the same
meteors in the same order, each in the state its own `Meteor::draw` call left it: the
length is unchanged, every attribute that `Meteor::draw` preserves reads the same along the
vector, and no other field of the manager changes. -/
theorem draw_renders_each_once (denv : DrawEnv M) (s : MeteorMgr M)
    (h : ¬ (denv.getFlagAtmosphere = true ∧ denv.getLuminance > 5)) :
    (MeteorMgr.draw denv s).1 = 0 ∧
      (MeteorMgr.draw denv s).2.2.filterMap DrawEvent.drawCall = s.active ∧
      (MeteorMgr.draw denv s).2.1 = { s with active := s.active.map denv.meteorDraw } ∧
      (MeteorMgr.draw denv s).2.1.active.length = s.active.length ∧
      (∀ (K : Type) (key : M → K), (∀ m, key (denv.meteorDraw m) = key m) →
        (MeteorMgr.draw denv s).2.1.active.map key = s.active.map key) := by
  have e : MeteorMgr.draw denv s = (0, { s with active := s.active.map denv.meteorDraw },
      [DrawEvent.setCurrentFrameLocal, DrawEvent.glBlendFunc, DrawEvent.glEnableBlend,
        DrawEvent.glDisableTexture2D] ++ (MeteorMgr.drawLoop denv s.active).2 ++
        [DrawEvent.glEnableTexture2D]) := by
    unfold MeteorMgr.draw
    rw [if_neg h]
    simp only [drawLoop_fst]
  rw [e]
  refine ⟨rfl, ?_, rfl, ?_, ?_⟩
  · simp only [List.filterMap_append, drawLoop_snd]
    simp [List.filterMap_cons, DrawEvent.drawCall]
  · simp
  · intro K key hkey
    simp only [List.map_map]
    exact List.map_congr_left (fun m _ => hkey m)

/-- Witness of C12: a night scene. -/
theorem draw_renders_each_once_witness :
    ¬ (darkScene.getFlagAtmosphere = true ∧ darkScene.getLuminance > 5) ∧
    ((MeteorMgr.draw darkScene demoMgr).1 = 0 ∧
      (MeteorMgr.draw darkScene demoMgr).2.2.filterMap DrawEvent.drawCall = demoMgr.active ∧
      (MeteorMgr.draw darkScene demoMgr).2.1 =
        { demoMgr with active := demoMgr.active.map darkScene.meteorDraw } ∧
      (MeteorMgr.draw darkScene demoMgr).2.1.active.length = demoMgr.active.length ∧
      (∀ (K : Type) (key : Nat → K), (∀ m, key (darkScene.meteorDraw m) = key m) →
        (MeteorMgr.draw darkScene demoMgr).2.1.active.map key = demoMgr.active.map key)) :=
  ⟨by norm_num [darkScene],
    draw_renders_each_once darkScene demoMgr (by norm_num [darkScene])⟩


/-- C15: `setZHR(n)` makes `getZHR()` return `n` and leaves `max_velocity`, `zhr_to_wsr`
and `active` as they were, for every `n`; `setMaxVelocity(v)` sets `max_velocity` to `v`
and leaves `ZHR`, `zhr_to_wsr` and `active` as they were; `getZHR()` reads `ZHR`, its body
assigning nothing. -/
theorem setters_change_own_field_only (s : MeteorMgr M) (n v : Int) :
    ((s.setZHR n).getZHR = n ∧ (s.setZHR n).max_velocity = s.max_velocity ∧
        (s.setZHR n).zhr_to_wsr = s.zhr_to_wsr ∧ (s.setZHR n).active = s.active) ∧
      ((s.setMaxVelocity v).max_velocity = v ∧ (s.setMaxVelocity v).ZHR = s.ZHR ∧
        (s.setMaxVelocity v).zhr_to_wsr = s.zhr_to_wsr ∧
        (s.setMaxVelocity v).active = s.active) ∧
      s.getZHR = s.ZHR :=
  ⟨⟨rfl, rfl, rfl, rfl⟩, ⟨rfl, rfl, rfl, rfl⟩, rfl⟩

/-- C16: the constructor sets `zhr_to_wsr` to the `float` quotient `1.6667f/3600.f`
whatever its two arguments, which is 3976901/8589934592 and lies within `10 ^ (-10)` of
1.6667/3600; `setZHR`, `setMaxVelocity`, `init`, `update` and `draw` leave the member as it
was. -/
theorem zhr_to_wsr_fixed (env : Env M) (denv : DrawEnv M) (settings : String → Option Int)
    (s : MeteorMgr M) (zhr maxv : Int) (delta : Dbl) :
    (MeteorMgr.ctor zhr maxv : MeteorMgr M).zhr_to_wsr = f32 (f32 1.6667 / f32 3600) ∧
      (MeteorMgr.ctor zhr maxv : MeteorMgr M).zhr_to_wsr = 3976901 / 8589934592 ∧
      |(MeteorMgr.ctor zhr maxv : MeteorMgr M).zhr_to_wsr - 1.6667 / 3600| < 1 / 10 ^ 10 ∧
      (s.setZHR zhr).zhr_to_wsr = s.zhr_to_wsr ∧
      (s.setMaxVelocity maxv).zhr_to_wsr = s.zhr_to_wsr ∧
      (MeteorMgr.init settings s).zhr_to_wsr = s.zhr_to_wsr ∧
      (∃ s' tr, MeteorMgr.update env s delta = some (s', tr) ∧
        s'.zhr_to_wsr = s.zhr_to_wsr) ∧
      (MeteorMgr.draw denv s).2.1.zhr_to_wsr = s.zhr_to_wsr := by
  refine ⟨rfl, ctor_zhr_to_wsr zhr maxv, ?_, rfl, rfl, rfl, ?_, ?_⟩
  · rw [ctor_zhr_to_wsr zhr maxv]
    norm_num [abs_lt]
  · obtain ⟨active, tr, hu⟩ := update_some env s delta
    exact ⟨_, tr, hu, rfl⟩
  · unfold MeteorMgr.draw
    split <;> rfl

/-- C17: `init()` sets `ZHR` to the integer stored in the settings under
"astro/meteor_rate", and to 10 when nothing is stored there; `max_velocity`, `zhr_to_wsr`
and `active` stay as they were. -/
theorem init_reads_meteor_rate (settings : String → Option Int) (s : MeteorMgr M) :
    MeteorMgr.init settings s =
      { s with ZHR := match settings "astro/meteor_rate" with
                      | some stored => stored
                      | none => 10 } := by
  unfold MeteorMgr.init MeteorMgr.setZHR
  cases settings "astro/meteor_rate" <;> rfl

/-- C19: after `update` the live collection is the survivors of the old collection, in
their old order, followed by the meteors created in this call in increasing trial
number. -/
theorem update_order (env : Env M) (s : MeteorMgr M) (delta : Dbl) :
    ∃ s' tr, MeteorMgr.update env s delta = some (s', tr) ∧
      s'.active = survivors env (Dbl.mul delta (Dbl.fin 1000)) s.active ++
        (tr.filterMap Event.created).map (fun p => env.newMeteor p.1 p.2) ∧
      ((tr.filterMap Event.created).map Prod.fst).Pairwise (fun a b => a < b) := by
  by_cases h : Dbl.le (Dbl.mul env.getTimeSpeed (Dbl.fin 86400)) (Dbl.fin 0) = true ∨
      Dbl.lt (Dbl.fin 1) (Dbl.abs (Dbl.mul env.getTimeSpeed (Dbl.fin 86400))) = true
  · refine ⟨_, _, update_gate_closed env s delta h, ?_, ?_⟩
    · simp [advanceTrace_created]
    · simp [advanceTrace_created]
  · refine ⟨_, _, update_gate_open env s delta h, ?_, ?_⟩
    · simp only [List.filterMap_append, advanceTrace_created, spawnTrace_created,
        List.nil_append, List.map_map]
      rfl
    · simp only [List.filterMap_append, advanceTrace_created, spawnTrace_created,
        List.nil_append, List.map_map]
      have e : (Prod.fst ∘ fun j : Nat => (j, s.max_velocity)) = id := rfl
      rw [e, List.map_id]
      exact launched_pairwise env s _ _ _ _

/-- C20: `update` returns and leaves `ZHR` and `max_velocity` (and `zhr_to_wsr`) as they
were, whether it returns at the speed gate or runs the spawn loop: the manager afterwards
is the one before with only `active` replaced. -/
theorem update_changes_only_active (env : Env M) (s : MeteorMgr M) (delta : Dbl) :
    ∃ s' tr, MeteorMgr.update env s delta = some (s', tr) ∧
      s'.ZHR = s.ZHR ∧ s'.max_velocity = s.max_velocity ∧ s'.zhr_to_wsr = s.zhr_to_wsr ∧
      s' = { s with active := s'.active } := by
  obtain ⟨active, tr, hu⟩ := update_some env s delta
  exact ⟨_, tr, hu, rfl, rfl, rfl, rfl⟩

/-- C18: past the speed gate, for `0 <= ZHR` (an `int`), `zhr_to_wsr` in `[0, 1]` (as the
constructor's value is) and `delta >= 0`, the clamped `delta_time` is the finite `double`
`c = min(delta * 1000, 500)`, the expression `ZHR * zhr_to_wsr * c / 1000` of line 139
has a finite `double` value `x`, and the trial count that the truncation of `x + 0.5`
gives is `max(1, round(x))` with `round` rounding halves up; `update` makes exactly that
many trials. -/
theorem meteorsPerFrame_eq_round (env : Env M) (s : MeteorMgr M) (delta : Dbl)
    (hg : ¬ (Dbl.le (Dbl.mul env.getTimeSpeed (Dbl.fin 86400)) (Dbl.fin 0) = true ∨
      Dbl.lt (Dbl.fin 1) (Dbl.abs (Dbl.mul env.getTimeSpeed (Dbl.fin 86400))) = true))
    (h0 : 0 ≤ s.ZHR) (hmax : s.ZHR ≤ 2147483647) (hk0 : 0 ≤ s.zhr_to_wsr)
    (hk1 : s.zhr_to_wsr ≤ 1) (hd : Dbl.le (Dbl.fin 0) delta = true) :
    ∃ c x : ℚ,
      (if Dbl.lt (Dbl.fin 500) (Dbl.mul delta (Dbl.fin 1000)) = true then Dbl.fin 500
        else Dbl.mul delta (Dbl.fin 1000)) = Dbl.fin c ∧
      (∀ q, Dbl.mul delta (Dbl.fin 1000) = Dbl.fin q → c = min q 500) ∧
      (Dbl.mul delta (Dbl.fin 1000) = Dbl.pinf → c = 500) ∧
      Dbl.div (Dbl.mul (Dbl.mul (Dbl.ofInt s.ZHR) (Dbl.fin s.zhr_to_wsr)) (Dbl.fin c))
        (Dbl.fin 1000) = Dbl.fin x ∧
      MeteorMgr.meteorsPerFrame env s delta = max 1 (round x) ∧
      ∃ s' tr, MeteorMgr.update env s delta = some (s', tr) ∧
        tr.filterMap Event.trial = List.range (max 1 (round x)).toNat := by
  obtain ⟨c, hc, hc0, hc5, hmin, hinf⟩ := clampDelta_of_nonneg hd
  obtain ⟨er, _, _⟩ := rate_fin s h0 hmax hk0 hk1 c hc0 hc5
  have e : MeteorMgr.meteorsPerFrame env s delta =
      max 1 (round (rateValue s.ZHR s.zhr_to_wsr c)) := by
    unfold MeteorMgr.meteorsPerFrame MeteorMgr.spawnDelta
    rw [hc, mpf_eq_round env s h0 hmax hk0 hk1 c hc0 hc5]
  refine ⟨c, rateValue s.ZHR s.zhr_to_wsr c, hc, hmin, hinf, er, e, _, _,
    update_gate_open env s delta hg, ?_⟩
  rw [List.filterMap_append, advanceTrace_trial, spawnTrace_trial, List.nil_append,
    List.range_eq_range', ← e]
  rfl

/-- Witness of C18: `MeteorMgr(10, 70)` at real speed, `update(0.1)`. -/
theorem meteorsPerFrame_eq_round_witness :
    (¬ (Dbl.le (Dbl.mul realTimeEnv.getTimeSpeed (Dbl.fin 86400)) (Dbl.fin 0) = true ∨
      Dbl.lt (Dbl.fin 1) (Dbl.abs (Dbl.mul realTimeEnv.getTimeSpeed (Dbl.fin 86400))) = true) ∧
      0 ≤ demoMgr.ZHR ∧ demoMgr.ZHR ≤ 2147483647 ∧ 0 ≤ demoMgr.zhr_to_wsr ∧
      demoMgr.zhr_to_wsr ≤ 1 ∧ Dbl.le (Dbl.fin 0) (Dbl.fin tenth) = true) ∧
    ∃ c x : ℚ,
      (if Dbl.lt (Dbl.fin 500) (Dbl.mul (Dbl.fin tenth) (Dbl.fin 1000)) = true then Dbl.fin 500
        else Dbl.mul (Dbl.fin tenth) (Dbl.fin 1000)) = Dbl.fin c ∧
      (∀ q, Dbl.mul (Dbl.fin tenth) (Dbl.fin 1000) = Dbl.fin q → c = min q 500) ∧
      (Dbl.mul (Dbl.fin tenth) (Dbl.fin 1000) = Dbl.pinf → c = 500) ∧
      Dbl.div (Dbl.mul (Dbl.mul (Dbl.ofInt demoMgr.ZHR) (Dbl.fin demoMgr.zhr_to_wsr))
        (Dbl.fin c)) (Dbl.fin 1000) = Dbl.fin x ∧
      MeteorMgr.meteorsPerFrame realTimeEnv demoMgr (Dbl.fin tenth) = max 1 (round x) ∧
      ∃ s' tr, MeteorMgr.update realTimeEnv demoMgr (Dbl.fin tenth) = some (s', tr) ∧
        tr.filterMap Event.trial = List.range (max 1 (round x)).toNat :=
  ⟨⟨gate_open_realTime, by decide, by decide, demoMgr_zhr_to_wsr_nonneg,
      demoMgr_zhr_to_wsr_le_one, by norm_num [Dbl.le, tenth]⟩,
    meteorsPerFrame_eq_round realTimeEnv demoMgr (Dbl.fin tenth) gate_open_realTime
      (by decide) (by decide) demoMgr_zhr_to_wsr_nonneg demoMgr_zhr_to_wsr_le_one
      (by norm_num [Dbl.le, tenth])⟩

/-- C14: for `0 <= ZHR` (an `int`) and `zhr_to_wsr` in `[0, 1]` (as the constructor's
value is), the expression `ZHR * zhr_to_wsr * 500 / 1000` has a finite `double` value
`X`, and whatever the delta and the samples, one `update` creates at most
`max(1, round(X))` meteors, so `active` grows by at most that beyond the survivors. -/
theorem update_spawn_bound (env : Env M) (s : MeteorMgr M) (delta : Dbl)
    (h0 : 0 ≤ s.ZHR) (hmax : s.ZHR ≤ 2147483647) (hk0 : 0 ≤ s.zhr_to_wsr)
    (hk1 : s.zhr_to_wsr ≤ 1) :
    ∃ X : ℚ,
      Dbl.div (Dbl.mul (Dbl.mul (Dbl.ofInt s.ZHR) (Dbl.fin s.zhr_to_wsr)) (Dbl.fin 500))
        (Dbl.fin 1000) = Dbl.fin X ∧
      ∃ s' tr, MeteorMgr.update env s delta = some (s', tr) ∧
        ((tr.filterMap Event.created).length : Int) ≤ max 1 (round X) ∧
        (s'.active.length : Int) ≤
          (survivors env (Dbl.mul delta (Dbl.fin 1000)) s.active).length + max 1 (round X) := by
  obtain ⟨eX, _, _⟩ := rate_fin s h0 hmax hk0 hk1 500 (by norm_num) (le_refl _)
  refine ⟨rateValue s.ZHR s.zhr_to_wsr 500, eX, ?_⟩
  have hb : (0 : Int) ≤ max 1 (round (rateValue s.ZHR s.zhr_to_wsr 500)) :=
    le_trans (by norm_num) (le_max_left _ _)
  by_cases hg : Dbl.le (Dbl.mul env.getTimeSpeed (Dbl.fin 86400)) (Dbl.fin 0) = true ∨
      Dbl.lt (Dbl.fin 1) (Dbl.abs (Dbl.mul env.getTimeSpeed (Dbl.fin 86400))) = true
  · refine ⟨_, _, update_gate_closed env s delta hg, ?_, ?_⟩
    · rw [advanceTrace_created]
      exact hb
    · simp only
      linarith
  · have hlen : ((launched env s (MeteorMgr.clampDelta (Dbl.mul delta (Dbl.fin 1000)))
          (MeteorMgr.mpf env s (MeteorMgr.clampDelta (Dbl.mul delta (Dbl.fin 1000))))
          (MeteorMgr.mpf env s
            (MeteorMgr.clampDelta (Dbl.mul delta (Dbl.fin 1000)))).toNat 0).length : Int) ≤
        max 1 (round (rateValue s.ZHR s.zhr_to_wsr 500)) := by
      by_cases hpos :
          Dbl.lt (Dbl.fin 0) (MeteorMgr.clampDelta (Dbl.mul delta (Dbl.fin 1000))) = true
      · obtain ⟨c, hc, hc0, hc5⟩ := clampDelta_pos_cases hpos
        rw [hc]
        have h1 := launched_length_le env s (Dbl.fin c) (MeteorMgr.mpf env s (Dbl.fin c))
          (MeteorMgr.mpf env s (Dbl.fin c)).toNat 0
        have h2 : MeteorMgr.mpf env s (Dbl.fin c) ≤
            max 1 (round (rateValue s.ZHR s.zhr_to_wsr 500)) := by
          rw [mpf_eq_round env s h0 hmax hk0 hk1 c hc0.le hc5]
          exact max_le_max (le_refl 1)
            (round_mono_rat (rateValue_mono s.ZHR s.zhr_to_wsr h0 hk0 hc5))
        have h3 := mpf_pos env s (Dbl.fin c)
        omega
      · rw [launched_eq_nil env s _ _ _ _ (fun j => launches_false_of_delta_notPos env s _ _ j
          hk0 (by simpa using hpos) (mpf_pos env s _))]
        exact hb
    refine ⟨_, _, update_gate_open env s delta hg, ?_, ?_⟩
    · rw [List.filterMap_append, advanceTrace_created, spawnTrace_created, List.nil_append,
        List.length_map]
      exact hlen
    · simp only [List.length_append, List.length_map]
      push_cast
      linarith

/-- Witness of C14: `MeteorMgr(10, 70)` and `update(3600)`. -/
theorem update_spawn_bound_witness :
    (0 ≤ demoMgr.ZHR ∧ demoMgr.ZHR ≤ 2147483647 ∧ 0 ≤ demoMgr.zhr_to_wsr ∧
      demoMgr.zhr_to_wsr ≤ 1) ∧
    ∃ X : ℚ,
      Dbl.div (Dbl.mul (Dbl.mul (Dbl.ofInt demoMgr.ZHR) (Dbl.fin demoMgr.zhr_to_wsr))
        (Dbl.fin 500)) (Dbl.fin 1000) = Dbl.fin X ∧
      ∃ s' tr, MeteorMgr.update realTimeEnv demoMgr (Dbl.fin 3600) = some (s', tr) ∧
        ((tr.filterMap Event.created).length : Int) ≤ max 1 (round X) ∧
        (s'.active.length : Int) ≤
          (survivors realTimeEnv (Dbl.mul (Dbl.fin 3600) (Dbl.fin 1000))
            demoMgr.active).length + max 1 (round X) :=
  ⟨⟨by decide, by decide, demoMgr_zhr_to_wsr_nonneg, demoMgr_zhr_to_wsr_le_one⟩,
    update_spawn_bound realTimeEnv demoMgr (Dbl.fin 3600) (by decide) (by decide)
      demoMgr_zhr_to_wsr_nonneg demoMgr_zhr_to_wsr_le_one⟩

theorem scenario_total_bounds (env : Env M) (s : MeteorMgr M) (hz : s.ZHR = 10)
    (hk : s.zhr_to_wsr = 3976901 / 8589934592)
    (hg : ¬ (Dbl.le (Dbl.mul env.getTimeSpeed (Dbl.fin 86400)) (Dbl.fin 0) = true ∨
      Dbl.lt (Dbl.fin 1) (Dbl.abs (Dbl.mul env.getTimeSpeed (Dbl.fin 86400))) = true))
    (hR0 : 32767 ≤ env.RAND_MAX) (hR1 : env.RAND_MAX ≤ 2147483647) :
    ∃ total, MeteorMgr.expectedTotal env (Dbl.fin tenth) 3600 s = some total ∧
      16666 / 10000 ≤ total ∧ total ≤ 1777 / 1000 := by
  obtain ⟨lo, hi⟩ := scenario_trialProbability env s hz hk hR1
  refine ⟨_, expectedTotal_of_scenario env hg 3600 s hz hk, ?_, ?_⟩
  · push_cast
    linarith
  · have hR : (32768 : ℚ) ≤ (env.RAND_MAX : ℚ) + 1 := by
      have : ((32767 : Nat) : ℚ) ≤ (env.RAND_MAX : ℚ) := by exact_mod_cast hR0
      push_cast at this
      linarith
    have hinv : 1 / ((env.RAND_MAX : ℚ) + 1) ≤ 1 / 32768 :=
      one_div_le_one_div_of_le (by norm_num) hR
    push_cast
    linarith

/-- C13, counterexample: for `MeteorMgr(10, 70)` at real speed with `RAND_MAX = 32767`,
16 of the 32768 values of `rand()` pass the test of the one trial of `update(0.1)`, so
over 3600 successive updates the chances of the trials add up to 225/128, about 1.76,
which is not `10 * 1.6667/3600 * 3600`. -/
theorem scenario_total_is_not_16_7 :
    MeteorMgr.expectedTotal realTimeEnv (Dbl.fin tenth) 3600 (MeteorMgr.ctor 10 70) =
        some (225 / 128) ∧
      MeteorMgr.expectedTotal realTimeEnv (Dbl.fin tenth) 3600 (MeteorMgr.ctor 10 70) ≠
        some (10 * (1.6667 / 3600) * 3600) := by
  have hz : (MeteorMgr.ctor 10 70 : MeteorMgr Nat).ZHR = 10 := rfl
  have hk := ctor_zhr_to_wsr (M := Nat) 10 70
  have hR : realTimeEnv.RAND_MAX = 32767 := rfl
  have ht := scenario_threshold (MeteorMgr.ctor 10 70 : MeteorMgr Nat) hz hk
  obtain ⟨lo, hi⟩ := launchCount_bounds 32767 (by norm_num)
    (MeteorMgr.ctor 10 70 : MeteorMgr Nat) (Dbl.fin 100) 1
    (3976901 / 8589934592) (1 / 18446744073709551616) (by rw [hz]; norm_num) ht
    (representable_of_eq _ 3976901 (-33) (by norm_num) (by norm_num) (by norm_num))
    (representable_of_eq _ 8540329867214847 (-64) (by norm_num) (by norm_num) (by norm_num))
    (by norm_num) (by norm_num) (by norm_num)
  have h15 : ((15 : Nat) : ℚ) <
      (MeteorMgr.launchCount 32767 (MeteorMgr.ctor 10 70 : MeteorMgr Nat) (Dbl.fin 100) 1 : ℚ) := by
    push_cast at lo ⊢
    linarith
  have h17 : (MeteorMgr.launchCount 32767 (MeteorMgr.ctor 10 70 : MeteorMgr Nat)
      (Dbl.fin 100) 1 : ℚ) < ((17 : Nat) : ℚ) := by
    push_cast at hi ⊢
    linarith
  have h15' : 15 < MeteorMgr.launchCount 32767 (MeteorMgr.ctor 10 70 : MeteorMgr Nat)
      (Dbl.fin 100) 1 := by exact_mod_cast h15
  have h17' : MeteorMgr.launchCount 32767 (MeteorMgr.ctor 10 70 : MeteorMgr Nat)
      (Dbl.fin 100) 1 < 17 := by exact_mod_cast h17
  have hcount : MeteorMgr.launchCount 32767 (MeteorMgr.ctor 10 70 : MeteorMgr Nat)
      (Dbl.fin 100) 1 = 16 := by omega
  have hp : MeteorMgr.trialProbability realTimeEnv (MeteorMgr.ctor 10 70 : MeteorMgr Nat)
      (Dbl.fin 100) 1 = 1 / 2048 := by
    unfold MeteorMgr.trialProbability
    rw [hR, hcount]
    norm_num
  have h := expectedTotal_of_scenario realTimeEnv gate_open_realTime 3600
    (MeteorMgr.ctor 10 70) hz hk
  rw [hp] at h
  have e : ((3600 : Nat) : ℚ) * (1 / 2048) = 225 / 128 := by norm_num
  rw [e] at h
  refine ⟨h, ?_⟩
  rw [h]
  intro hc
  have := Option.some.inj hc
  norm_num at this

/-- C13, amended: with `ZHR = 10`, the constructor's `zhr_to_wsr`, `tspeed = 1.0` and
`update(0.1)`, each update makes one trial, whose threshold is the `double` value of
`10 * zhr_to_wsr * 100 / 1000`, which is `zhr_to_wsr` itself, 3976901/8589934592; with
`rand()` uniform on `0 .. RAND_MAX` and `32767 <= RAND_MAX <= 2147483647`, over 3600
successive updates the chances of the trials add up to between 1.6666 and 1.777. -/
theorem scenario_expected_total (env : Env M) (s : MeteorMgr M) (hz : s.ZHR = 10)
    (hk : s.zhr_to_wsr = f32 (f32 1.6667 / f32 3600))
    (hspeed : Dbl.mul env.getTimeSpeed (Dbl.fin 86400) = Dbl.fin 1)
    (hR0 : 32767 ≤ env.RAND_MAX) (hR1 : env.RAND_MAX ≤ 2147483647) :
    MeteorMgr.meteorsPerFrame env s (Dbl.fin tenth) = 1 ∧
      (∃ s' tr, MeteorMgr.update env s (Dbl.fin tenth) = some (s', tr) ∧
        tr.filterMap Event.trial = [0]) ∧
      Dbl.div (Dbl.div (Dbl.mul (Dbl.mul (Dbl.ofInt 10) (Dbl.fin s.zhr_to_wsr)) (Dbl.fin 100))
        (Dbl.fin 1000)) (Dbl.ofInt 1) = Dbl.fin (3976901 / 8589934592) ∧
      MeteorMgr.threshold s (MeteorMgr.spawnDelta (Dbl.fin tenth))
        (MeteorMgr.meteorsPerFrame env s (Dbl.fin tenth)) = Dbl.fin (3976901 / 8589934592) ∧
      ∃ total, MeteorMgr.expectedTotal env (Dbl.fin tenth) 3600 s = some total ∧
        16666 / 10000 ≤ total ∧ total ≤ 1777 / 1000 := by
  have hk' : s.zhr_to_wsr = 3976901 / 8589934592 := hk.trans zhr_to_wsr_value
  have hg : ¬ (Dbl.le (Dbl.mul env.getTimeSpeed (Dbl.fin 86400)) (Dbl.fin 0) = true ∨
      Dbl.lt (Dbl.fin 1) (Dbl.abs (Dbl.mul env.getTimeSpeed (Dbl.fin 86400))) = true) := by
    rw [hspeed]
    simp [Dbl.le, Dbl.lt, Dbl.abs]
  have hm := scenario_mpf env s hz hk'
  have ht := scenario_threshold s hz hk'
  refine ⟨hm, ⟨_, _, update_gate_open env s (Dbl.fin tenth) hg, ?_⟩, ?_, ?_,
    scenario_total_bounds env s hz hk' hg hR0 hR1⟩
  · have hm1 : MeteorMgr.mpf env s
        (MeteorMgr.clampDelta (Dbl.mul (Dbl.fin tenth) (Dbl.fin 1000))) = 1 := hm
    rw [List.filterMap_append, advanceTrace_trial, spawnTrace_trial, List.nil_append, hm1]
    rfl
  · have : MeteorMgr.threshold s (Dbl.fin 100) 1 =
        Dbl.div (Dbl.div (Dbl.mul (Dbl.mul (Dbl.ofInt s.ZHR) (Dbl.fin s.zhr_to_wsr))
          (Dbl.fin 100)) (Dbl.fin 1000)) (Dbl.ofInt 1) := rfl
    rw [← hz, ← this]
    exact ht
  · rw [hm, scenario_spawnDelta]
    exact ht

/-- Witness of C13: `MeteorMgr(10, 70)` holding four meteors, at real speed with
`RAND_MAX = 32767`. -/
theorem scenario_expected_total_witness :
    (demoMgr.ZHR = 10 ∧ demoMgr.zhr_to_wsr = f32 (f32 1.6667 / f32 3600) ∧
      Dbl.mul realTimeEnv.getTimeSpeed (Dbl.fin 86400) = Dbl.fin 1 ∧
      32767 ≤ realTimeEnv.RAND_MAX ∧ realTimeEnv.RAND_MAX ≤ 2147483647) ∧
    (MeteorMgr.meteorsPerFrame realTimeEnv demoMgr (Dbl.fin tenth) = 1 ∧
      (∃ s' tr, MeteorMgr.update realTimeEnv demoMgr (Dbl.fin tenth) = some (s', tr) ∧
        tr.filterMap Event.trial = [0]) ∧
      Dbl.div (Dbl.div (Dbl.mul (Dbl.mul (Dbl.ofInt 10) (Dbl.fin demoMgr.zhr_to_wsr))
        (Dbl.fin 100)) (Dbl.fin 1000)) (Dbl.ofInt 1) = Dbl.fin (3976901 / 8589934592) ∧
      MeteorMgr.threshold demoMgr (MeteorMgr.spawnDelta (Dbl.fin tenth))
        (MeteorMgr.meteorsPerFrame realTimeEnv demoMgr (Dbl.fin tenth)) =
          Dbl.fin (3976901 / 8589934592) ∧
      ∃ total, MeteorMgr.expectedTotal realTimeEnv (Dbl.fin tenth) 3600 demoMgr = some total ∧
        16666 / 10000 ≤ total ∧ total ≤ 1777 / 1000) :=
  ⟨⟨rfl, rfl, tspeed_realTime, by decide, by decide⟩,
    scenario_expected_total realTimeEnv demoMgr rfl rfl tspeed_realTime (by decide)
      (by decide)⟩

end Stellarium
